import Mathlib

/-!
# Verification of the lose-notion WhatsApp task-bot conversation engine

A shallow embedding, in Lean 4, of the Python sources under
`lose_notion/tasks/` (context storage, task handlers, creation handlers,
confirmation handlers, menu handlers) together with theorems settling the
behavioural claims made by the natural-language specification.

Modelling conventions:
* Dates are day numbers (`Int`); `frappe.utils.today()` is `env.today`.
* JSON payloads are values of the inductive type `Json`.  Lists and dicts are
  represented as constructor chains (`acons`/`anil`, `ocons`/`onil`) so that
  every definition is plain structural recursion that reduces in the kernel;
  the predicate `wfJ` carves out the values that correspond to Python data.
  `json.dumps` and `json.loads` are implemented concretely (`dumps`, `loads`)
  and proved to round-trip.  `dumps` emits CPython's default format
  (separators `", "` and `": "`); only the two structurally significant
  characters `"` and `\` are escaped (CPython additionally escapes control
  and non-ASCII characters, which does not change the `loads` after `dumps`
  composition modelled here).
* The chat transport is an outbox: sending appends a `Msg`; `frappe.log_error`
  appends to a log list.  Both Python functions swallow their own errors.
* Python exceptions are modelled with `Except PyEx`; a `try/except` block is a
  `match` on the result.  Database reads never fail; `Sprint Board` document
  insertion fails exactly when `env.insertFails` says so (this models the
  downstream persistence failures discussed by the spec's error-handling
  section).
-/

set_option maxHeartbeats 1000000

abbrev PyEx := String

/-! ## JSON values -/

inductive Json where
  | null
  | bool (b : Bool)
  | num (n : Int)
  | str (s : String)
  | anil
  | acons (hd : Json) (tl : Json)
  | onil
  | ocons (key : String) (val : Json) (tl : Json)
deriving DecidableEq

/-- Is the value a Python list (array chain node)? -/
def isA : Json → Bool
  | .anil => true
  | .acons _ _ => true
  | _ => false

/-- Is the value a Python dict (object chain node)? -/
def isO : Json → Bool
  | .onil => true
  | .ocons _ _ _ => true
  | _ => false

/-- Well-formedness: array tails are arrays, object tails are objects. -/
def wfJ : Json → Bool
  | .acons x tl => wfJ x && isA tl && wfJ tl
  | .ocons _ v tl => wfJ v && isO tl && wfJ tl
  | _ => true

/-- Build a JSON array from a Lean list. -/
def jArr : List Json → Json := fun l => l.foldr .acons .anil

/-- Build a JSON object from a Lean association list. -/
def jObj : List (String × Json) → Json :=
  fun l => l.foldr (fun kv t => .ocons kv.1 kv.2 t) .onil

/-- The elements of a JSON array chain (Python `for x in xs`). -/
def jItems : Json → List Json
  | .acons x tl => x :: jItems tl
  | _ => []

/-- Python `d[k]` on a dict, as a partial lookup. -/
def jGet (k : String) : Json → Option Json
  | .ocons k' v tl => if k' = k then some v else jGet k tl
  | _ => none

/-- Python truthiness of a JSON-shaped value (`if not tasks:` etc.). -/
def jTruthy : Json → Bool
  | .null => false
  | .bool b => b
  | .num n => n != 0
  | .str s => s != ""
  | .anil => false
  | .acons _ _ => true
  | .onil => false
  | .ocons _ _ _ => true

/-! ## Decimal digits (used by `str(int)`, `json.dumps` and `json.loads`) -/

/-- Decimal digit character. -/
def digitCh (d : Nat) : Char := Char.ofNat (48 + d)

/-- Decimal digits of a natural number, most significant first (fuel-based so
that it reduces in the kernel; the fuel is always sufficient). -/
def natCharsAux : Nat → Nat → List Char
  | 0, _ => []
  | f + 1, n => if n < 10 then [digitCh n] else natCharsAux f (n / 10) ++ [digitCh (n % 10)]

def natChars (n : Nat) : List Char := natCharsAux (n + 1) n

/-- Decimal rendering of a Python `int` (`str(n)`). -/
def intChars (n : Int) : List Char :=
  if n < 0 then '-' :: natChars n.natAbs else natChars n.toNat

/-- `str(n)` for a Python `int`. -/
def intStr (n : Int) : String := String.mk (intChars n)

/-- Numeric value of a digit list (the accumulator fold used by the parser). -/
def chVal (ds : List Char) : Nat :=
  ds.foldl (fun a c => a * 10 + (c.toNat - 48)) 0

theorem digitCh_isDigit {d : Nat} (h : d < 10) : (digitCh d).isDigit = true := by
  interval_cases d <;> decide

theorem digitCh_toNat {d : Nat} (h : d < 10) : (digitCh d).toNat = 48 + d := by
  interval_cases d <;> decide

theorem chVal_append_last (ds : List Char) (c : Char) :
    chVal (ds ++ [c]) = chVal ds * 10 + (c.toNat - 48) := by
  simp [chVal, List.foldl_append]

theorem natCharsAux_spec :
    ∀ f n, n < f →
      natCharsAux f n ≠ [] ∧ (∀ c ∈ natCharsAux f n, c.isDigit = true) ∧
      chVal (natCharsAux f n) = n := by
  intro f
  induction f with
  | zero => omega
  | succ f ih =>
    intro n hn
    rw [natCharsAux]
    split
    · refine ⟨by simp, ?_, by simp [chVal, digitCh_toNat, *]⟩
      intro c hc
      simp only [List.mem_singleton] at hc
      subst hc
      exact digitCh_isDigit (by omega)
    · have hrec := ih (n / 10) (by omega)
      refine ⟨by simp, ?_, ?_⟩
      · intro c hc
        rcases List.mem_append.mp hc with h1 | h2
        · exact hrec.2.1 c h1
        · simp only [List.mem_singleton] at h2
          subst h2
          exact digitCh_isDigit (by omega)
      · rw [chVal_append_last, hrec.2.2, digitCh_toNat (by omega)]
        omega

theorem natChars_ne_nil (n : Nat) : natChars n ≠ [] :=
  (natCharsAux_spec (n + 1) n (by omega)).1

theorem natChars_digits (n : Nat) : ∀ c ∈ natChars n, c.isDigit = true :=
  (natCharsAux_spec (n + 1) n (by omega)).2.1

theorem chVal_natChars (n : Nat) : chVal (natChars n) = n :=
  (natCharsAux_spec (n + 1) n (by omega)).2.2

/-! ## `json.dumps` -/

/-- Escape the two structural characters of a JSON string body. -/
def escChars : List Char → List Char
  | [] => []
  | c :: cs => if c = '"' ∨ c = '\\' then '\\' :: c :: escChars cs else c :: escChars cs

/-- Serialize a JSON value.  For a non-empty container the remainder of the
chain is rendered by serializing the tail and dropping its opening bracket. -/
def dumpV : Json → List Char
  | .num n => intChars n
  | .str s => '"' :: escChars s.data ++ ['"']
  | .bool true => ['t', 'r', 'u', 'e']
  | .null => ['n', 'u', 'l', 'l']
  | .bool false => ['f', 'a', 'l', 's', 'e']
  | .anil => ['[', ']']
  | .acons x tl =>
      '[' :: dumpV x ++ (match tl with
        | .anil => [']']
        | _ => ',' :: ' ' :: (dumpV tl).tail)
  | .onil => ['\x7b', '\x7d']
  | .ocons k v tl =>
      '\x7b' :: '"' :: escChars k.data ++ '"' :: ':' :: ' ' :: dumpV v ++ (match tl with
        | .onil => ['\x7d']
        | _ => ',' :: ' ' :: (dumpV tl).tail)

/-- `json.dumps` with CPython's default separators. -/
def dumps (v : Json) : String := String.mk (dumpV v)

/-- Rendering of the part of an array chain after the first element. -/
def tailA : Json → List Char
  | .acons x tl => ',' :: ' ' :: dumpV x ++ tailA tl
  | _ => []

/-- Rendering of the part of an object chain after the first member. -/
def tailO : Json → List Char
  | .ocons k v tl => ',' :: ' ' :: '"' :: escChars k.data ++ '"' :: ':' :: ' ' :: dumpV v ++ tailO tl
  | _ => []

theorem arr_body_eq :
    ∀ tl, isA tl = true → wfJ tl = true →
      (match tl with
        | .anil => [']']
        | _ => ',' :: ' ' :: (dumpV tl).tail) = tailA tl ++ [']'] := by
  intro tl
  induction tl with
  | acons y ys ih ih2 =>
    intro _ hwf
    simp only [wfJ, Bool.and_eq_true] at hwf
    have h2 := ih2 hwf.1.2 hwf.2
    simp only [dumpV, tailA, List.tail_cons, h2]
    simp
  | anil => intro _ _; rfl
  | null => intro h; simp [isA] at h
  | bool b => intro h; simp [isA] at h
  | num n => intro h; simp [isA] at h
  | str s => intro h; simp [isA] at h
  | onil => intro h; simp [isA] at h
  | ocons k v tl ihv iht => intro h; simp [isA] at h

theorem obj_body_eq :
    ∀ tl, isO tl = true → wfJ tl = true →
      (match tl with
        | .onil => ['\x7d']
        | _ => ',' :: ' ' :: (dumpV tl).tail) = tailO tl ++ ['\x7d'] := by
  intro tl
  induction tl with
  | ocons k v tl ihv iht =>
    intro _ hwf
    simp only [wfJ, Bool.and_eq_true] at hwf
    have h2 := iht hwf.1.2 hwf.2
    simp only [dumpV, tailO, List.tail_cons, h2]
    simp
  | onil => intro _ _; rfl
  | null => intro h; simp [isO] at h
  | bool b => intro h; simp [isO] at h
  | num n => intro h; simp [isO] at h
  | str s => intro h; simp [isO] at h
  | anil => intro h; simp [isO] at h
  | acons x tl ih ih2 => intro h; simp [isO] at h

theorem dumpV_acons (x tl : Json) (ha : isA tl = true) (hw : wfJ tl = true) :
    dumpV (.acons x tl) = '[' :: dumpV x ++ (tailA tl ++ [']']) := by
  simp only [dumpV]
  rw [← arr_body_eq tl ha hw]

theorem dumpV_ocons (k : String) (v tl : Json) (ho : isO tl = true) (hw : wfJ tl = true) :
    dumpV (.ocons k v tl) =
      '\x7b' :: '"' :: escChars k.data ++ '"' :: ':' :: ' ' :: dumpV v ++ (tailO tl ++ ['\x7d']) := by
  simp only [dumpV]
  rw [← obj_body_eq tl ho hw]

/-- The first character of any serialized value is not a container closer. -/
theorem dumpV_head (v : Json) :
    ∃ c cs, dumpV v = c :: cs ∧ c ≠ ']' ∧ c ≠ '\x7d' := by
  cases v with
  | null => exact ⟨'n', _, rfl, by decide, by decide⟩
  | bool b =>
    cases b with
    | true => exact ⟨'t', _, rfl, by decide, by decide⟩
    | false => exact ⟨'f', _, rfl, by decide, by decide⟩
  | num n =>
    by_cases h : n < 0
    · refine ⟨'-', natChars n.natAbs, ?_, by decide, by decide⟩
      simp [dumpV, intChars, h]
    · obtain ⟨c, cs, hc⟩ := List.exists_cons_of_ne_nil (natChars_ne_nil n.toNat)
      have hd : c.isDigit = true := natChars_digits n.toNat c (by rw [hc]; simp)
      refine ⟨c, cs, ?_, ?_, ?_⟩
      · simp [dumpV, intChars, h, hc]
      · intro hq; rw [hq] at hd; exact absurd hd (by decide)
      · intro hq; rw [hq] at hd; exact absurd hd (by decide)
  | str s => exact ⟨'"', _, rfl, by decide, by decide⟩
  | anil => exact ⟨'[', _, rfl, by decide, by decide⟩
  | acons x tl => exact ⟨'[', _, rfl, by decide, by decide⟩
  | onil => exact ⟨'\x7b', _, rfl, by decide, by decide⟩
  | ocons k w tl => exact ⟨'\x7b', _, rfl, by decide, by decide⟩

/-! ## `json.loads` -/

/-- Parse a JSON string body up to (and consuming) the closing quote. -/
def pStrAux : List Char → Option (List Char × List Char)
  | [] => none
  | c :: r =>
    if c = '"' then some ([], r)
    else if c = '\\' then
      match r with
      | [] => none
      | e :: r' =>
        if e = '"' ∨ e = '\\' then (pStrAux r').map (fun p => (e :: p.1, p.2)) else none
    else (pStrAux r).map (fun p => (c :: p.1, p.2))

/-- Consume an expected literal. -/
def expectLit : List Char → List Char → Option (List Char)
  | [], cs => some cs
  | p :: ps, c :: cs => if c = p then expectLit ps cs else none
  | _ :: _, [] => none

/-- Parse a maximal non-empty digit run. -/
def pNatParse (cs : List Char) : Option (Nat × List Char) :=
  let ds := cs.takeWhile Char.isDigit
  if ds.isEmpty then none else some (chVal ds, cs.dropWhile Char.isDigit)

/-- Does the remainder not start with a digit? -/
def noDigB : List Char → Bool
  | [] => true
  | c :: _ => !c.isDigit

inductive PJob where
  | val
  | elemsTail
  | fieldsTail

/-- Fuel-based JSON parser accepting the format `dumpV` emits. -/
def pF : Nat → PJob → List Char → Option (Json × List Char)
  | 0, _, _ => none
  | _ + 1, .val, [] => none
  | f + 1, .val, c :: r =>
    if c = 'n' then (expectLit ['u', 'l', 'l'] r).map (fun r' => (.null, r'))
    else if c = 't' then (expectLit ['r', 'u', 'e'] r).map (fun r' => (.bool true, r'))
    else if c = 'f' then (expectLit ['a', 'l', 's', 'e'] r).map (fun r' => (.bool false, r'))
    else if c = '"' then (pStrAux r).map (fun p => (.str (String.mk p.1), p.2))
    else if c = '[' then
      if r.head? = some ']' then some (.anil, r.tail)
      else
        (pF f .val r).bind (fun p =>
          (pF f .elemsTail p.2).map (fun q => (.acons p.1 q.1, q.2)))
    else if c = '\x7b' then
      if r.head? = some '\x7d' then some (.onil, r.tail)
      else
        match r with
        | '"' :: r₁ =>
          (pStrAux r₁).bind (fun kp =>
            match kp.2 with
            | ':' :: ' ' :: r₂ =>
              (pF f .val r₂).bind (fun p =>
                (pF f .fieldsTail p.2).map (fun q => (.ocons (String.mk kp.1) p.1 q.1, q.2)))
            | _ => none)
        | _ => none
    else if c = '-' then (pNatParse r).map (fun p => (.num (-(p.1 : Int)), p.2))
    else if c.isDigit then (pNatParse (c :: r)).map (fun p => (.num (p.1 : Int), p.2))
    else none
  | f + 1, .elemsTail, cs =>
    match cs with
    | ']' :: r => some (.anil, r)
    | ',' :: ' ' :: r =>
      (pF f .val r).bind (fun p =>
        (pF f .elemsTail p.2).map (fun q => (.acons p.1 q.1, q.2)))
    | _ => none
  | f + 1, .fieldsTail, cs =>
    match cs with
    | '\x7d' :: r => some (.onil, r)
    | ',' :: ' ' :: '"' :: r₁ =>
      (pStrAux r₁).bind (fun kp =>
        match kp.2 with
        | ':' :: ' ' :: r₂ =>
          (pF f .val r₂).bind (fun p =>
            (pF f .fieldsTail p.2).map (fun q => (.ocons (String.mk kp.1) p.1 q.1, q.2)))
        | _ => none)
    | _ => none

/-- `json.loads`, accepting exactly a serialized value with nothing left over. -/
def loads (s : String) : Option Json :=
  match pF (2 * s.data.length + 2) .val s.data with
  | some (v, []) => some v
  | _ => none

theorem pStrAux_round : ∀ (body rest : List Char),
    pStrAux (escChars body ++ '"' :: rest) = some (body, rest) := by
  intro body
  induction body with
  | nil =>
    intro rest
    rw [escChars, List.nil_append, pStrAux.eq_def]
    simp
  | cons c cs ih =>
    intro rest
    by_cases h : c = '"' ∨ c = '\\'
    · rw [escChars, if_pos h,
        show ('\\' :: c :: escChars cs) ++ '"' :: rest =
          '\\' :: c :: (escChars cs ++ '"' :: rest) by simp,
        pStrAux.eq_def]
      simp [h, ih]
    · rw [escChars, if_neg h, List.cons_append, pStrAux.eq_def]
      push_neg at h
      simp [h.1, h.2, ih]

theorem expectLit_round : ∀ (lit rest : List Char),
    expectLit lit (lit ++ rest) = some rest := by
  intro lit
  induction lit with
  | nil => intro rest; rfl
  | cons c cs ih => intro rest; simp [expectLit, ih]

theorem takeWhile_digits_append {l rest : List Char}
    (hl : ∀ c ∈ l, c.isDigit = true) (hrest : noDigB rest = true) :
    (l ++ rest).takeWhile Char.isDigit = l ∧ (l ++ rest).dropWhile Char.isDigit = rest := by
  induction l with
  | nil =>
    simp only [List.nil_append]
    cases rest with
    | nil => simp
    | cons c r =>
      simp only [noDigB, Bool.not_eq_true'] at hrest
      simp [List.takeWhile, List.dropWhile, hrest]
  | cons c cs ih =>
    have hc := hl c (by simp)
    have := ih (fun d hd => hl d (by simp [hd]))
    simp [List.takeWhile, List.dropWhile, hc, this.1, this.2]

theorem pNatParse_round {m : Nat} {rest : List Char} (hrest : noDigB rest = true) :
    pNatParse (natChars m ++ rest) = some (m, rest) := by
  have h := takeWhile_digits_append (natChars_digits m) hrest
  have hne : ¬ (natChars m).isEmpty = true := by
    cases hx : natChars m with
    | nil => exact absurd hx (natChars_ne_nil m)
    | cons a l => simp
  simp only [pNatParse, h.1, h.2]
  rw [if_neg hne, chVal_natChars]

theorem dumpV_length_pos (v : Json) : 1 ≤ (dumpV v).length := by
  obtain ⟨c, cs, hc, -, -⟩ := dumpV_head v
  rw [hc]
  simp

theorem digit_ne {c : Char} (hd : c.isDigit = true) :
    c ≠ 'n' ∧ c ≠ 't' ∧ c ≠ 'f' ∧ c ≠ '"' ∧ c ≠ '[' ∧ c ≠ '\x7b' ∧ c ≠ '-' := by
  refine ⟨?_, ?_, ?_, ?_, ?_, ?_, ?_⟩ <;>
    (intro hq; subst hq; exact absurd hd (by decide))

theorem noDig_tailA {tl : Json} (h : isA tl = true) (rest : List Char) :
    noDigB (tailA tl ++ ']' :: rest) = true := by
  cases tl <;> simp_all [isA, tailA, noDigB]

theorem noDig_tailO {tl : Json} (h : isO tl = true) (rest : List Char) :
    noDigB (tailO tl ++ '\x7d' :: rest) = true := by
  cases tl <;> simp_all [isO, tailO, noDigB]

theorem pF_round : ∀ f : Nat,
    (∀ v rest, wfJ v = true → 2 * (dumpV v).length ≤ f → noDigB rest = true →
       pF f .val (dumpV v ++ rest) = some (v, rest)) ∧
    (∀ c rest, isA c = true → wfJ c = true → 2 * (tailA c).length + 2 ≤ f →
       pF f .elemsTail (tailA c ++ ']' :: rest) = some (c, rest)) ∧
    (∀ c rest, isO c = true → wfJ c = true → 2 * (tailO c).length + 2 ≤ f →
       pF f .fieldsTail (tailO c ++ '\x7d' :: rest) = some (c, rest)) := by
  intro f
  induction f using Nat.strong_induction_on with
  | h f ih =>
    refine ⟨?_, ?_, ?_⟩
    · intro v rest hwf hlen hnd
      have hvpos := dumpV_length_pos v
      match f, hlen with
      | 0, hlen => omega
      | fp + 1, hlen =>
        cases v with
        | null =>
          rw [show dumpV .null ++ rest = 'n' :: 'u' :: 'l' :: 'l' :: rest by rfl, pF.eq_def]
          simp [expectLit]
        | bool b =>
          cases b with
          | true =>
            rw [show dumpV (.bool true) ++ rest = 't' :: 'r' :: 'u' :: 'e' :: rest by rfl,
              pF.eq_def]
            simp [expectLit]
          | false =>
            rw [show dumpV (.bool false) ++ rest = 'f' :: 'a' :: 'l' :: 's' :: 'e' :: rest by rfl,
              pF.eq_def]
            simp [expectLit]
        | num n =>
          by_cases hn : n < 0
          · rw [show dumpV (.num n) ++ rest = '-' :: (natChars n.natAbs ++ rest) by
              simp [dumpV, intChars, hn], pF.eq_def]
            simp [pNatParse_round hnd, Int.ofNat_natAbs_of_nonpos (le_of_lt hn)]
          · obtain ⟨c, cs, hc⟩ := List.exists_cons_of_ne_nil (natChars_ne_nil n.toNat)
            have hd : c.isDigit = true := natChars_digits n.toNat c (by rw [hc]; simp)
            have hne := digit_ne hd
            rw [show dumpV (.num n) ++ rest = c :: (cs ++ rest) by
              simp [dumpV, intChars, hn, hc], pF.eq_def]
            simp [hne.1, hne.2.1, hne.2.2.1, hne.2.2.2.1, hne.2.2.2.2.1,
              hne.2.2.2.2.2.1, hne.2.2.2.2.2.2, hd]
            rw [show c :: (cs ++ rest) = natChars n.toNat ++ rest by rw [hc]; simp,
              pNatParse_round hnd]
            simp [Int.toNat_of_nonneg (by omega : (0 : Int) ≤ n)]
        | str s =>
          rw [show dumpV (.str s) ++ rest = '"' :: (escChars s.data ++ '"' :: rest) by
            simp [dumpV], pF.eq_def]
          simp [pStrAux_round]
        | anil =>
          rw [show dumpV .anil ++ rest = '[' :: ']' :: rest by rfl, pF.eq_def]
          simp
        | acons x tl =>
          simp only [wfJ, Bool.and_eq_true] at hwf
          obtain ⟨⟨hx, hat⟩, hwt⟩ := hwf
          have hdump := dumpV_acons x tl hat hwt
          have hxpos := dumpV_length_pos x
          have hlen2 : (dumpV (.acons x tl)).length =
              2 + (dumpV x).length + (tailA tl).length := by
            rw [hdump]; simp; omega
          obtain ⟨c0, cs0, hc0, hne1, hne2⟩ := dumpV_head x
          have h1 := (ih fp (by omega)).1 x (tailA tl ++ ']' :: rest) hx (by omega)
            (noDig_tailA hat rest)
          have h2 := (ih fp (by omega)).2.1 tl rest hat hwt (by omega)
          have hhead : ((dumpV x ++ (tailA tl ++ ']' :: rest)).head? = some ']') = False := by
            rw [hc0]; simp [hne1]
          rw [show dumpV (.acons x tl) ++ rest =
              '[' :: (dumpV x ++ (tailA tl ++ ']' :: rest)) by rw [hdump]; simp, pF.eq_def]
          simp [hhead, h1, h2]
          constructor
          · rw [hc0]; simp [hne1]
          · intro hnil
            rw [hnil] at hc0
            exact absurd hc0 (by simp)
        | onil =>
          rw [show dumpV .onil ++ rest = '\x7b' :: '\x7d' :: rest by rfl, pF.eq_def]
          simp
        | ocons k v tl =>
          simp only [wfJ, Bool.and_eq_true] at hwf
          obtain ⟨⟨hv, hot⟩, hwt⟩ := hwf
          have hdump := dumpV_ocons k v tl hot hwt
          have hvpos2 := dumpV_length_pos v
          have hlen2 : (dumpV (.ocons k v tl)).length =
              6 + (escChars k.data).length + (dumpV v).length + (tailO tl).length := by
            rw [hdump]; simp; omega
          have h1 := (ih fp (by omega)).1 v (tailO tl ++ '\x7d' :: rest) hv (by omega)
            (noDig_tailO hot rest)
          have h2 := (ih fp (by omega)).2.2 tl rest hot hwt (by omega)
          have hk : String.mk k.data = k := rfl
          rw [show dumpV (.ocons k v tl) ++ rest =
              '\x7b' :: '"' ::
                (escChars k.data ++ '"' :: ':' :: ' ' :: (dumpV v ++ (tailO tl ++ '\x7d' :: rest)))
              by rw [hdump]; simp, pF.eq_def]
          simp [pStrAux_round, h1, h2, hk]
    · intro c rest hA hw hlen
      match f, hlen with
      | 0, hlen => omega
      | fp + 1, hlen =>
        cases c with
        | anil =>
          rw [show tailA .anil ++ ']' :: rest = ']' :: rest by rfl, pF.eq_def]
          rfl
        | acons y ys =>
          simp only [wfJ, Bool.and_eq_true] at hw
          obtain ⟨⟨hy, hay⟩, hwy⟩ := hw
          have hypos := dumpV_length_pos y
          have hlen2 : (tailA (.acons y ys)).length =
              2 + (dumpV y).length + (tailA ys).length := by
            simp [tailA]
            omega
          have h1 := (ih fp (by omega)).1 y (tailA ys ++ ']' :: rest) hy (by omega)
            (noDig_tailA hay rest)
          have h2 := (ih fp (by omega)).2.1 ys rest hay hwy (by omega)
          rw [show tailA (.acons y ys) ++ ']' :: rest =
              ',' :: ' ' :: (dumpV y ++ (tailA ys ++ ']' :: rest)) by simp [tailA], pF.eq_def]
          simp [h1, h2]
        | null => simp [isA] at hA
        | bool b => simp [isA] at hA
        | num n => simp [isA] at hA
        | str s => simp [isA] at hA
        | onil => simp [isA] at hA
        | ocons k v tl => simp [isA] at hA
    · intro c rest hO hw hlen
      match f, hlen with
      | 0, hlen => omega
      | fp + 1, hlen =>
        cases c with
        | onil =>
          rw [show tailO .onil ++ '\x7d' :: rest = '\x7d' :: rest by rfl, pF.eq_def]
          rfl
        | ocons k v tl =>
          simp only [wfJ, Bool.and_eq_true] at hw
          obtain ⟨⟨hv, hot⟩, hwt⟩ := hw
          have hvpos := dumpV_length_pos v
          have hlen2 : (tailO (.ocons k v tl)).length =
              6 + (escChars k.data).length + (dumpV v).length + (tailO tl).length := by
            simp [tailO]
            omega
          have h1 := (ih fp (by omega)).1 v (tailO tl ++ '\x7d' :: rest) hv (by omega)
            (noDig_tailO hot rest)
          have h2 := (ih fp (by omega)).2.2 tl rest hot hwt (by omega)
          have hk : String.mk k.data = k := rfl
          rw [show tailO (.ocons k v tl) ++ '\x7d' :: rest =
              ',' :: ' ' :: '"' ::
                (escChars k.data ++ '"' :: ':' :: ' ' :: (dumpV v ++ (tailO tl ++ '\x7d' :: rest)))
              by simp [tailO], pF.eq_def]
          simp [pStrAux_round, h1, h2, hk]
        | null => simp [isO] at hO
        | bool b => simp [isO] at hO
        | num n => simp [isO] at hO
        | str s => simp [isO] at hO
        | anil => simp [isO] at hO
        | acons x tl => simp [isO] at hO

/-- `json.loads` inverts `json.dumps` on well-formed values. -/
theorem loads_dumps (v : Json) (hwf : wfJ v = true) : loads (dumps v) = some v := by
  have h := (pF_round (2 * (dumps v).data.length + 2)).1 v [] hwf (by simp [dumps]) rfl
  rw [List.append_nil] at h
  rw [loads]
  rw [show (dumps v).data = dumpV v from rfl] at h ⊢
  rw [h]

/-- `json.loads` inverts `json.dumps` (dict payloads). -/
theorem loads_dumps_obj {fs : Json} (hO : isO fs = true) (hwf : wfJ fs = true) :
    loads (dumps fs) = some fs := loads_dumps fs hwf

/-! ## Python string primitives

`String.split`, `String.toLower` and friends from the Lean library do not
always reduce in the kernel, so the Python string operations used by the
handlers are implemented here over `List Char`. -/

def pyStripChars (cs : List Char) : List Char :=
  ((cs.dropWhile Char.isWhitespace).reverse.dropWhile Char.isWhitespace).reverse

/-- Python `s.strip()`. -/
def pyStrip (s : String) : String := String.mk (pyStripChars s.data)

/-- Python `s.lower()` (ASCII). -/
def pyLower (s : String) : String := String.mk (s.data.map Char.toLower)

/-- Split on a single separator character (Python `s.split('|')`). -/
def splitOnCh (sep : Char) : List Char → List (List Char)
  | [] => [[]]
  | c :: r =>
    if c = sep then [] :: splitOnCh sep r
    else
      match splitOnCh sep r with
      | [] => [[c]]
      | g :: gs => (c :: g) :: gs

def pySplit (sep : Char) (s : String) : List String :=
  (splitOnCh sep s.data).map String.mk

def startsWithL : List Char → List Char → Bool
  | [], _ => true
  | _ :: _, [] => false
  | p :: ps, c :: cs => p = c && startsWithL ps cs

/-- Python `s.startswith(pre)`. -/
def pyStartsWith (s pre : String) : Bool := startsWithL pre.data s.data

def infixL (needle : List Char) : List Char → Bool
  | [] => needle.isEmpty
  | c :: r => startsWithL needle (c :: r) || infixL needle r

/-- Python `needle in hay`. -/
def pyContains (hay needle : String) : Bool := infixL needle.data hay.data

/-- Python `s.isdigit()` (ASCII digits). -/
def pyIsDigit (s : String) : Bool := !s.data.isEmpty && s.data.all Char.isDigit

/-- Python `int(s)` on an all-digit string. -/
def strToNat (s : String) : Nat := chVal s.data

/-- Python `s[-n:]`. -/
def pyLastN (n : Nat) (s : String) : String := String.mk ((s.data.reverse.take n).reverse)

/-- Python `s[:n]`. -/
def pyTake (n : Nat) (s : String) : String := String.mk (s.data.take n)

/-- Python `s[n:]`. -/
def pyDrop (n : Nat) (s : String) : String := String.mk (s.data.drop n)

/-- Split on a character class and drop empty groups (Python `s.split()`). -/
def splitPCh (p : Char → Bool) : List Char → List (List Char)
  | [] => [[]]
  | c :: r =>
    if p c then [] :: splitPCh p r
    else
      match splitPCh p r with
      | [] => [[c]]
      | g :: gs => (c :: g) :: gs

def pySplitWs (s : String) : List String :=
  ((splitPCh Char.isWhitespace s.data).filter (· ≠ [])).map String.mk

/-- Stable insertion into a sorted list. -/
def insertSorted (le : α → α → Bool) (x : α) : List α → List α
  | [] => [x]
  | y :: ys => if le x y then x :: y :: ys else y :: insertSorted le x ys

/-- Stable sort (CPython's `list.sort` is stable; any stable sort agrees). -/
def insSort (le : α → α → Bool) : List α → List α
  | [] => []
  | x :: xs => insertSorted le x (insSort le xs)

/-- Python truthiness for an optional string field (`None` and `""` falsy). -/
def strTruthy : Option String → Bool
  | none => false
  | some s => s != ""

/-- Python `a or b` on optional string fields. -/
def pyOrS (a b : Option String) : Option String := if strTruthy a then a else b

/-- `str(x)` for a value that may be `None`. -/
def pyShowOpt : Option String → String
  | none => "None"
  | some s => s

/-! ## Data model: users, tasks, messages, state, environment -/

structure User where
  name : String
  full_name : Option String
  email : Option String
  mobile_no : Option String
  enabled : Bool
  user_type : String
deriving DecidableEq

/-- A persisted `Sprint Board` document. -/
structure SprintTask where
  name : String
  task_name : String
  status : String
  assigned_to : Option String
  deadline : Option Int
  created_by : String
  created_on : Int
  completed_date : Option Int
deriving DecidableEq

structure Button where
  id : String
  title : String
  description : Option String
deriving DecidableEq

/-- An outgoing WhatsApp message (`toNum` is the doc's `to` field). -/
structure Msg where
  toNum : String
  body : String
  interactive : Bool
  buttons : List Button
deriving DecidableEq

/-- A `WhatsApp Chat Context` document: the doc name is the phone number, so
there is exactly one record per phone number. -/
structure CtxRec where
  context_type : String
  context_data : String
deriving DecidableEq

abbrev CtxStore := String → Option CtxRec

structure St where
  contexts : CtxStore
  tasks : List SprintTask
  outbox : List Msg
  logs : List String

structure Env where
  today : Int
  users : List User
  /-- The external natural-language date parser (dateparser/dateutil chain),
  already given lower-cased stripped text; `none` models a parse failure. -/
  extDateParse : String → Option Int
  /-- Whether inserting a `Sprint Board` document with the given task name
  raises (models downstream persistence failure). -/
  insertFails : String → Bool
  /-- `date.strftime("%b %d")`. -/
  monthDay : Int → String

/-- A Python value that is either a `datetime.date` or a string — pending-task
deadlines flow through the handlers in both forms, distinguished with
`isinstance(deadline, str)`. -/
inductive DateV where
  | d (day : Int)
  | s (txt : String)
deriving DecidableEq

/-- `str(x)` for a date-or-string value (dates render as their day number). -/
def DateV.pyStr : DateV → String
  | .d n => intStr n
  | .s t => t

/-- Python `int(s)`-style strict parse of a possibly signed decimal string. -/
def parseIntE (s : String) : Except PyEx Int :=
  match s.data with
  | [] => .error "getdate: invalid date string"
  | c :: r =>
    if c = '-' then
      match pNatParse r with
      | some (m, []) => .ok (-(m : Int))
      | _ => .error "getdate: invalid date string"
    else
      match pNatParse (c :: r) with
      | some (m, []) => .ok ((m : Int))
      | _ => .error "getdate: invalid date string"

/-- `frappe.utils.getdate` applied to a serialized date; raises on junk. -/
def getdateE (s : String) : Except PyEx Int := parseIntE s

/-- `if isinstance(deadline, str): deadline = getdate(deadline)`. -/
def DateV.toDayE : DateV → Except PyEx Int
  | .d n => .ok n
  | .s t => getdateE t

theorem parseIntE_intStr (n : Int) : parseIntE (intStr n) = .ok n := by
  have hnil : noDigB [] = true := rfl
  by_cases h : n < 0
  · have hp : pNatParse (natChars n.natAbs) = some (n.natAbs, []) := by
      have := @pNatParse_round n.natAbs [] hnil
      rwa [List.append_nil] at this
    rw [show intStr n = String.mk ('-' :: natChars n.natAbs) by
      simp [intStr, intChars, h]]
    rw [show parseIntE (String.mk ('-' :: natChars n.natAbs)) =
        (match pNatParse (natChars n.natAbs) with
         | some (m, []) => Except.ok (-(m : Int))
         | _ => Except.error "getdate: invalid date string") from rfl]
    rw [hp]
    show Except.ok (-(n.natAbs : Int)) = Except.ok n
    rw [Int.ofNat_natAbs_of_nonpos (by omega : n ≤ 0), neg_neg]
  · obtain ⟨c, cs, hc⟩ := List.exists_cons_of_ne_nil (natChars_ne_nil n.toNat)
    have hd : c.isDigit = true := natChars_digits n.toNat c (by rw [hc]; simp)
    have hcm : c ≠ '-' := by
      intro hq; rw [hq] at hd; exact absurd hd (by decide)
    have hp : pNatParse (c :: cs) = some (n.toNat, []) := by
      rw [← hc]
      have := @pNatParse_round n.toNat [] hnil
      rwa [List.append_nil] at this
    rw [show intStr n = String.mk (c :: cs) by simp [intStr, intChars, h, hc]]
    rw [show parseIntE (String.mk (c :: cs)) =
        (if c = '-' then
          match pNatParse cs with
          | some (m, []) => Except.ok (-(m : Int))
          | _ => Except.error "getdate: invalid date string"
         else
          match pNatParse (c :: cs) with
          | some (m, []) => Except.ok ((m : Int))
          | _ => Except.error "getdate: invalid date string") from rfl]
    rw [if_neg hcm, hp]
    show Except.ok ((n.toNat : Int)) = Except.ok n
    rw [Int.toNat_of_nonneg (by omega)]

theorem getdateE_dpyStr (n : Int) : getdateE (DateV.pyStr (.d n)) = .ok n :=
  parseIntE_intStr n

theorem toDayE_d (n : Int) : DateV.toDayE (.d n) = .ok n := rfl

/-! ## `whatsapp_utils.py` -/

def txtMsg (toNum body : String) : Msg := ⟨toNum, body, false, []⟩

/-- `send_reply(to_number, message, whatsapp_account)`: inserts an outgoing
text message; its `try/except` swallows every error, so it is total. -/
def send_reply (st : St) (to_number message whatsapp_account : String) : St :=
  { st with outbox := st.outbox ++ [txtMsg to_number message] }

/-- `send_interactive_message(to_number, message_body, buttons, account)`. -/
def send_interactive_message (st : St) (to_number message_body : String)
    (buttons : List Button) (whatsapp_account : String) : St :=
  { st with outbox := st.outbox ++ [⟨to_number, message_body, true, buttons⟩] }

/-- `send_typing_indicator` is a placeholder (`pass`) in the source. -/
def send_typing_indicator (st : St) (to_number whatsapp_account : String) : St := st

/-- `frappe.log_error`. -/
def log_error (st : St) (message title : String) : St :=
  { st with logs := st.logs ++ [title ++ ": " ++ message] }

/-! ## `context_storage.py` -/

/-- Serialization applied by `set_context`: a payload that is already a `str`
is stored as-is, anything else goes through `json.dumps(..., default=str)`. -/
def serializeCtxData : Json → String
  | .str s => s
  | d => dumps d

/-- `set_context(phone_number, context_type, context_data)` — creates or
updates the single `WhatsApp Chat Context` record named by the phone number. -/
def set_context (st : St) (phone_number context_type : String) (context_data : Json) : St :=
  { st with
    contexts := fun q =>
      if q = phone_number then some ⟨context_type, serializeCtxData context_data⟩
      else st.contexts q }

/-- `clear_context(phone_number)` — deletes the record; a missing record is
ignored (`DoesNotExistError` is passed over). -/
def clear_context (st : St) (phone_number : String) : St :=
  { st with contexts := fun q => if q = phone_number then none else st.contexts q }

/-- `get_context(phone_number)`: returns the record's type and decoded data,
`None` when the record does not exist; `json.loads` failure propagates. -/
def get_context (store : CtxStore) (phone_number : String) :
    Except PyEx (Option (String × Json)) :=
  match store phone_number with
  | none => .ok none
  | some r =>
    match loads r.context_data with
    | some j => .ok (some (r.context_type, j))
    | none => .error "json.loads"

/-- `get_context_data(phone_number, context_type=None)`; an exception from
`get_context` (a `json.loads` failure) propagates. -/
def get_context_data (store : CtxStore) (phone_number : String) (context_type : Option String) :
    Except PyEx (Option Json) :=
  match get_context store phone_number with
  | .error e => .error e
  | .ok none => .ok none
  | .ok (some (t, d)) =>
    match context_type with
    | none => .ok (some d)
    | some tq =>
      -- `if context_type and context["context_type"] != context_type`
      if tq ≠ "" ∧ t ≠ tq then .ok none else .ok (some d)

/-- `has_context(phone_number, context_type=None)`. -/
def has_context (store : CtxStore) (phone_number : String) (context_type : Option String) : Bool :=
  match store phone_number with
  | none => false
  | some r =>
    match context_type with
    | none => true
    | some tq => if tq ≠ "" then r.context_type == tq else true

theorem get_context_data_set_same (st : St) (p t : String) (d : Json)
    (hw : wfJ d = true) (hns : ∀ s, d ≠ .str s) (ht : t ≠ "") :
    get_context_data (set_context st p t d).contexts p (some t) = .ok (some d) := by
  have hser : serializeCtxData d = dumps d := by
    cases d <;> first | rfl | exact absurd rfl (hns _)
  simp [get_context_data, get_context, set_context, hser, loads_dumps d hw, ht]

theorem get_context_data_set_other_type (st : St) (p t tq : String) (d : Json)
    (hw : wfJ d = true) (hns : ∀ s, d ≠ .str s) (hne : t ≠ tq) (htq : tq ≠ "") :
    get_context_data (set_context st p t d).contexts p (some tq) = .ok none := by
  have hser : serializeCtxData d = dumps d := by
    cases d <;> first | rfl | exact absurd rfl (hns _)
  simp [get_context_data, get_context, set_context, hser, loads_dumps d hw, htq, hne]

theorem get_context_data_clear (st : St) (p : String) (ty : Option String) :
    get_context_data (clear_context st p).contexts p ty = .ok none := by
  simp [get_context_data, get_context, clear_context]

theorem get_context_data_none {store : CtxStore} {p : String} (h : store p = none)
    (ty : Option String) : get_context_data store p ty = .ok none := by
  simp [get_context_data, get_context, h]

/-! ## `date_utils.py` -/

/-- `parse_date(date_str)`: keyword handling then external parser chain,
falling back to today; never raises. -/
def parse_date (env : Env) (date_str : Option String) : Int :=
  match date_str with
  | none => env.today
  | some ds =>
    if ds = "" then env.today
    else
      let t := pyLower (pyStrip ds)
      if t = "today" then env.today
      else if t = "tomorrow" then env.today + 1
      else if t = "yesterday" then env.today - 1
      else
        match env.extDateParse t with
        | some d => d
        | none => env.today

/-- `format_date_display(date_obj)`. -/
def format_date_display (env : Env) (date_obj : Option Int) : String :=
  match date_obj with
  | none => "Today"
  | some d =>
    if d = env.today then "Today"
    else if d = env.today + 1 then "Tomorrow"
    else env.monthDay d

/-- `get_days_text(deadline, today_date)`. -/
def get_days_text (env : Env) (deadline : Option Int) : String :=
  match deadline with
  | none => "No deadline"
  | some dl =>
    let days_diff := dl - env.today
    if days_diff < 0 then
      intStr (-days_diff) ++ " day" ++ (if 1 < -days_diff then "s" else "") ++ " overdue"
    else if days_diff = 0 then "Due today"
    else if days_diff = 1 then "Due tomorrow"
    else "Due in " ++ intStr days_diff ++ " days"

/-! ## `user_utils.py` -/

/-- `get_user_by_phone(phone_number)`: strips separators, keeps the last ten
characters and looks for an enabled user whose mobile number contains them. -/
def get_user_by_phone (env : Env) (phone_number : String) : Option User :=
  let phone := String.mk (phone_number.data.filter (fun c => !(c = ' ' || c = '-' || c = '+')))
  let key := pyLastN 10 phone
  env.users.find? (fun u =>
    u.enabled &&
      (match u.mobile_no with
       | some m => infixL key.data m.data
       | none => false))

/-- `_calculate_match_score(search_term, user)`. -/
def calculate_match_score (search_term : String) (u : User) : Nat :=
  let full_name := pyLower (pyShowOpt (pyOrS u.full_name (some "")))
  let email := pyLower (pyShowOpt (pyOrS u.email (some "")))
  let emailPre := if pyContains email "@" then (pySplit '@' email).headD email else email
  if search_term = full_name ∨ search_term = email then 100
  else
    let name_parts := pySplitWs full_name
    let s1 := if name_parts.any (fun part => pyStartsWith part search_term) then 50 else 0
    let s2 := s1 + (if pyContains full_name search_term then 40 else 0)
    let s3 := s2 +
      (if pyStartsWith emailPre search_term then 45
       else if pyContains emailPre search_term then 30 else 0)
    let s4 :=
      if s3 = 0 then
        (if name_parts.any (fun part => pyContains part search_term) then 20 else 0)
      else s3
    if 0 < s4 ∧ full_name.data.length < 20 then s4 + 5 else s4

/-- `fuzzy_search_user(search_term, limit=3)`. -/
def fuzzy_search_user (env : Env) (search_term : String) (limit : Nat := 3) : List User :=
  if search_term = "" then []
  else
    let t := pyLower (pyStrip search_term)
    match env.users.find? (fun u => u.enabled && u.email == some t) with
    | some u => [u]
    | none =>
      -- exact full-name match via a wildcard-free, case-insensitive LIKE
      match env.users.find? (fun u =>
          u.enabled && pyLower (pyShowOpt (pyOrS u.full_name (some ""))) == t
            && u.full_name.isSome) with
      | some u => [u]
      | none =>
        let users := (env.users.filter
          (fun u => u.enabled && u.user_type == "System User")).take 100
        let scored := (users.map (fun u => (calculate_match_score t u, u))).filter
          (fun p => 0 < p.1)
        let sorted := insSort (fun a b => b.1 ≤ a.1) scored
        (sorted.map (fun p => p.2)).take limit

/-! ## JSON access helpers (Python dict/list operations on decoded payloads) -/

/-- Python `d.get(k, dflt)`. -/
def jGetD (d : Json) (k : String) (dflt : Json) : Json := (jGet k d).getD dflt

/-- Python `d[k]` (raises `KeyError` when absent). -/
def jGetE (d : Json) (k : String) : Except PyEx Json :=
  match jGet k d with
  | some v => .ok v
  | none => .error ("KeyError: " ++ k)

/-- A JSON value used where Python expects `str` (raises otherwise). -/
def asStrE : Json → Except PyEx String
  | .str s => .ok s
  | _ => .error "TypeError: expected str"

/-- Python `d[k] = v` on a dict: updates in place or appends. -/
def jSet (k : String) (v : Json) : Json → Json
  | .ocons k' w tl => if k' = k then .ocons k' v tl else .ocons k' w (jSet k v tl)
  | .onil => .ocons k v .onil
  | other => other

/-- `.get(k, dflt)` where the callers store a string (used in f-strings). -/
def jStrD (d : Json) (k dflt : String) : String :=
  match jGet k d with
  | some (.str s) => s
  | _ => dflt

/-- Numeric view of a JSON value (the callers store Python ints here). -/
def jNumD : Json → Int
  | .num n => n
  | _ => 0

/-- Decode `None`-or-string (e.g. the stored `exclude_status`). -/
def jOptStr : Json → Option String
  | .str s => some s
  | _ => none

def optStrJ : Option String → Json
  | none => .null
  | some s => .str s

def natStr (n : Nat) : String := intStr (n : Int)

def concatAll (l : List String) : String := l.foldl (· ++ ·) ""

/-! ## `task_handlers.py` -/

def MAX_WHATSAPP_LIST_ITEMS : Nat := 10

def STATUS_EMOJI : List (String × String) :=
  [("Not Started", "⚫"), ("In Progress", "🔵"), ("Completed", "🟢"), ("On Hold", "🟠")]

def STATUS_DISPLAY : List (String × String) :=
  [("Not Started", "⚫ Not Started"), ("In Progress", "🔵 In Progress"),
   ("Completed", "🟢 Completed"), ("On Hold", "🟠 On Hold")]

def get_status_emoji (status : String) : String :=
  ((STATUS_EMOJI.find? (fun p => p.1 = status)).map (·.2)).getD "⚫"

def get_status_display (status : String) : String :=
  ((STATUS_DISPLAY.find? (fun p => p.1 = status)).map (·.2)).getD status

/-- One entry of a task list handed to the list renderer. -/
structure TaskRow where
  task_id : String
  task_title : String
  days_text : String
  status : String
  deadline : Option Int
deriving DecidableEq

/-- One entry of the compact projection stored in `task_list_context`. -/
structure CompactRow where
  task_id : String
  task_title : String
  days_text : String
  status : String
deriving DecidableEq

def encodeRow (r : CompactRow) : Json :=
  jObj [("task_id", .str r.task_id), ("task_title", .str r.task_title),
        ("days_text", .str r.days_text), ("status", .str r.status)]

/-- Decode a stored row.  Python subscripts the fields lazily; the repository
writers always store all four keys as strings, so an up-front decode is
equivalent on reachable data. -/
def decodeRow (j : Json) : Except PyEx CompactRow := do
  let tid ← asStrE (← jGetE j "task_id")
  let title ← asStrE (← jGetE j "task_title")
  let days ← asStrE (← jGetE j "days_text")
  let status ← asStrE (← jGetE j "status")
  pure ⟨tid, title, days, status⟩

def decodeRowsL : List Json → Except PyEx (List CompactRow)
  | [] => .ok []
  | j :: js =>
    match decodeRow j with
    | .error e => .error e
    | .ok r =>
      match decodeRowsL js with
      | .error e => .error e
      | .ok rs => .ok (r :: rs)

def decodeRows (j : Json) : Except PyEx (List CompactRow) :=
  if isA j then decodeRowsL (jItems j) else .error "TypeError: expected list"

theorem decodeRow_encodeRow (r : CompactRow) : decodeRow (encodeRow r) = .ok r := by
  cases r
  rfl

theorem isA_jArr (l : List Json) : isA (jArr l) = true := by
  cases l <;> rfl

theorem isO_jObj (l : List (String × Json)) : isO (jObj l) = true := by
  cases l <;> rfl

theorem jItems_jArr (l : List Json) : jItems (jArr l) = l := by
  induction l with
  | nil => rfl
  | cons x xs ih =>
    simp only [jArr, List.foldr_cons] at ih ⊢
    simp [jItems, ih]

theorem wfJ_jArr {l : List Json} (h : ∀ x ∈ l, wfJ x = true) : wfJ (jArr l) = true := by
  induction l with
  | nil => rfl
  | cons x xs ih =>
    simp only [jArr, List.foldr_cons] at ih ⊢
    simp only [wfJ, Bool.and_eq_true]
    exact ⟨⟨h x (by simp), isA_jArr xs⟩, ih (fun y hy => h y (by simp [hy]))⟩

theorem wfJ_jObj {l : List (String × Json)} (h : ∀ kv ∈ l, wfJ kv.2 = true) :
    wfJ (jObj l) = true := by
  induction l with
  | nil => rfl
  | cons kv kvs ih =>
    simp only [jObj, List.foldr_cons] at ih ⊢
    simp only [wfJ, Bool.and_eq_true]
    exact ⟨⟨h kv (by simp), isO_jObj kvs⟩, ih (fun y hy => h y (by simp [hy]))⟩

theorem decodeRowsL_encode (rs : List CompactRow) :
    decodeRowsL (rs.map encodeRow) = .ok rs := by
  induction rs with
  | nil => rfl
  | cons r rs ih => simp [decodeRowsL, decodeRow_encodeRow, ih]

theorem decodeRows_encode (rs : List CompactRow) :
    decodeRows (jArr (rs.map encodeRow)) = .ok rs := by
  rw [decodeRows, if_pos (isA_jArr _), jItems_jArr]
  exact decodeRowsL_encode rs

def TASKS_PER_PAGE : Nat := 9

def MAX_TASKS_IN_BODY : Nat := 12

/-- `_build_status_summary(status_counts, exclude_status)`. -/
def build_status_summary (status_counts : Json) (exclude_status : Option String) : String :=
  let mk := fun (key emoji label : String) =>
    if exclude_status ≠ some key ∧ 0 < jNumD (jGetD status_counts key (.num 0)) then
      [emoji ++ " " ++ intStr (jNumD (jGetD status_counts key (.num 0))) ++ " " ++ label]
    else []
  let parts := mk "not_started" "⚫" "not started" ++ mk "in_progress" "🔵" "in progress" ++
    mk "overdue" "🔴" "overdue" ++ mk "on_hold" "🟠" "on hold"
  String.intercalate "\n" parts

/-- `_send_paginated_task_list(to_number, task_list, account, header_text,
status_counts, exclude_status, page)`. -/
def send_paginated_task_list (st : St) (to_number : String)
    (task_list : List CompactRow) (whatsapp_account header_text : String)
    (status_counts : Json) (exclude_status : Option String) (page : Nat) :
    Except PyEx St := do
  let st := send_typing_indicator st to_number whatsapp_account
  let total_tasks := task_list.length
  let start_idx := page * TASKS_PER_PAGE
  let end_idx := min (start_idx + TASKS_PER_PAGE) total_tasks
  let has_more := decide (end_idx < total_tasks)
  -- context = get_context_data(to_number, "task_list_context") or {}
  let ctx? ← get_context_data st.contexts to_number (some "task_list_context")
  let ctx := match ctx? with
    | some c => if jTruthy c then c else .onil
    | none => .onil
  let ctx := jSet "page" (.num page) ctx
  let st := set_context st to_number "task_list_context" ctx
  let task_list_text := concatAll ((task_list.enum.take MAX_TASKS_IN_BODY).map (fun p =>
    natStr (p.1 + 1) ++ ". " ++ pyTake 35 p.2.task_title ++ " (" ++ p.2.days_text ++ ") " ++
      get_status_emoji p.2.status ++ "\n"))
  let task_list_text := task_list_text ++
    (if MAX_TASKS_IN_BODY < total_tasks then
      "... +" ++ natStr (total_tasks - MAX_TASKS_IN_BODY) ++ " more task" ++
        (if 1 < total_tasks - MAX_TASKS_IN_BODY then "s" else "") ++ "\n"
     else "")
  let page_slice := (task_list.enum.drop start_idx).take (end_idx - start_idx)
  let buttons := page_slice.map (fun p =>
    Button.mk ("SELECT_TASK:" ++ p.2.task_id) (pyTake 20 p.2.task_title)
      (some (natStr (p.1 + 1) ++ ". " ++ pyTake 68 p.2.days_text)))
  let buttons := buttons ++
    (if has_more then
      [Button.mk "LOAD_MORE_TASKS" "Load More ➡️"
        (some (natStr (total_tasks - end_idx) ++ " more task" ++
          (if 1 < total_tasks - end_idx then "s" else "")))]
     else [])
  let message_body :=
    if page = 0 then
      "📋 *" ++ header_text ++ "* (" ++ natStr total_tasks ++ " task" ++
        (if 1 < total_tasks then "s" else "") ++ ")\n\n" ++ task_list_text ++ "\n"
    else
      "📋 *" ++ header_text ++ "* (Page " ++ natStr (page + 1) ++ ", showing " ++
        natStr (start_idx + 1) ++ "-" ++ natStr end_idx ++ " of " ++ natStr total_tasks ++
        ")\n\n" ++
      concatAll (page_slice.map (fun p =>
        natStr (p.1 + 1) ++ ". " ++ pyTake 35 p.2.task_title ++ " (" ++ p.2.days_text ++ ") " ++
          get_status_emoji p.2.status ++ "\n")) ++ "\n"
  let message_body := message_body ++
    (if TASKS_PER_PAGE < total_tasks then
      "💡 *Type a number (1-" ++ natStr total_tasks ++ ") or \x27more\x27 to load more*"
     else "Select a task to update its status.")
  let summary := build_status_summary status_counts exclude_status
  let message_body := message_body ++ (if summary ≠ "" then "\n\n" ++ summary else "")
  pure (send_interactive_message st to_number message_body buttons whatsapp_account)

def defaultCounts : Json :=
  jObj [("not_started", .num 0), ("in_progress", .num 0), ("overdue", .num 0),
        ("on_hold", .num 0)]

/-- `send_task_list_with_numbers(to_number, task_list, account, header_text,
status_counts, exclude_status)`. -/
def send_task_list_with_numbers (st : St) (to_number : String) (task_list : List TaskRow)
    (whatsapp_account : String) (header_text : String := "Your Tasks")
    (status_counts : Option Json := none) (exclude_status : Option String := none) :
    Except PyEx St :=
  let status_counts := status_counts.getD defaultCounts
  if task_list.isEmpty then
    let summary := build_status_summary status_counts exclude_status
    let msg := "✅ No tasks found!" ++ (if summary ≠ "" then "\n\n" ++ summary else "")
    .ok (send_reply st to_number msg whatsapp_account)
  else
    let compact_list := task_list.map (fun t =>
      CompactRow.mk t.task_id (pyTake 35 t.task_title) t.days_text t.status)
    let context_data := jObj [("tasks", jArr (compact_list.map encodeRow)), ("page", .num 0),
      ("status_counts", status_counts), ("exclude_status", optStrJ exclude_status),
      ("header", .str header_text)]
    let st := set_context st to_number "task_list_context" context_data
    send_paginated_task_list st to_number compact_list whatsapp_account header_text
      status_counts exclude_status 0

/-- Shared shape of `handle_more_command` / `handle_load_more_button`:
read the consolidated context and advance one page. -/
def loadNextPage (st : St) (from_number whatsapp_account : String) (ctx : Json) :
    Except PyEx St := do
  let rows ← decodeRows (jGetD ctx "tasks" .null)
  -- stored pages are the non-negative ints this module itself wrote
  let current_page := (jNumD (jGetD ctx "page" (.num 0))).toNat
  let status_counts := jGetD ctx "status_counts" .onil
  let exclude_status := jOptStr (jGetD ctx "exclude_status" .null)
  let header_text := jStrD ctx "header" "Your Tasks"
  send_paginated_task_list st from_number rows whatsapp_account header_text status_counts
    exclude_status (current_page + 1)

/-- `handle_more_command(message, from_number, whatsapp_account)`. -/
def handle_more_command (st : St) (message from_number whatsapp_account : String) :
    Except PyEx (Bool × St) :=
  if pyLower (pyStrip message) ≠ "more" then .ok (false, st)
  else do
    let ctx? ← get_context_data st.contexts from_number (some "task_list_context")
    match ctx? with
    | none => .ok (false, st)
    | some ctx =>
      if ¬ (jTruthy ctx ∧ jTruthy (jGetD ctx "tasks" .null)) then .ok (false, st)
      else do
        let st' ← loadNextPage st from_number whatsapp_account ctx
        pure (true, st')

/-- `handle_load_more_button(from_number, whatsapp_account)`. -/
def handle_load_more_button (st : St) (from_number whatsapp_account : String) :
    Except PyEx St := do
  let ctx? ← get_context_data st.contexts from_number (some "task_list_context")
  match ctx? with
  | none =>
    .ok (send_reply st from_number
      "❌ No task list found. Please request your tasks again." whatsapp_account)
  | some ctx =>
    if ¬ (jTruthy ctx ∧ jTruthy (jGetD ctx "tasks" .null)) then
      .ok (send_reply st from_number
        "❌ No task list found. Please request your tasks again." whatsapp_account)
    else loadNextPage st from_number whatsapp_account ctx

/-- `handle_task_selection(task_id, from_number, whatsapp_account)` from
`handlers/task_handlers.py`; its `try/except` makes it total. -/
def handle_task_selection (st : St) (task_id from_number whatsapp_account : String) : St :=
  match st.tasks.find? (fun t => t.name = task_id) with
  | none => send_reply st from_number "❌ Task not found." whatsapp_account
  | some task_data =>
    -- store the task id for the `change` command before offering statuses
    let st := set_context st from_number "deadline_edit_task"
      (jObj [("task_id", .str task_id)])
    let all_statuses : List (String × String × String) :=
      [("STATUS:Completed:" ++ task_id, "Completed 🟢", "Completed"),
       ("STATUS:In Progress:" ++ task_id, "In Progress 🔵", "In Progress"),
       ("STATUS:On Hold:" ++ task_id, "On Hold 🟠", "On Hold"),
       ("STATUS:Not Started:" ++ task_id, "Not Started ⚫", "Not Started")]
    let status_buttons := ((all_statuses.filter (fun s => s.2.2 ≠ task_data.status)).map
      (fun s => Button.mk s.1 s.2.1 none)).take 3
    let message_body :=
      "📋 *Task:* " ++ task_data.task_name ++ "\n📌 *Current Status:* " ++
        get_status_display task_data.status ++
        "\n\nSelect new status:\n\n💡 _Type `change` to change deadline_"
    send_interactive_message st from_number message_body status_buttons whatsapp_account

/-- `handle_number_selection(message, from_number, whatsapp_account)`: selects
a task by 1-based ordinal over the full stored list. -/
def handle_number_selection (st : St) (message from_number whatsapp_account : String) :
    Except PyEx (Bool × St) :=
  if ¬ pyIsDigit (pyStrip message) then .ok (false, st)
  else
    let task_number := strToNat (pyStrip message)
    if task_number < 1 then .ok (false, st)
    else do
      let ctx? ← get_context_data st.contexts from_number (some "task_list_context")
      match ctx? with
      | none => .ok (false, st)
      | some ctx =>
        if ¬ (jTruthy ctx ∧ jTruthy (jGetD ctx "tasks" .null)) then .ok (false, st)
        else
          -- try: ... except Exception: return False
          match (do
            let task_listJ ← jGetE ctx "tasks"
            if hA : isA task_listJ then
              let items := jItems task_listJ
              if hlt : task_number - 1 < items.length then
                let row := items.get ⟨task_number - 1, hlt⟩
                let task_id ← asStrE (← jGetE row "task_id")
                pure (true, handle_task_selection st task_id from_number whatsapp_account)
              else
                pure (true, send_reply st from_number
                  ("❌ Invalid number. Please enter a number between 1 and " ++
                    natStr items.length ++ ".") whatsapp_account)
            else (.error "TypeError: len" : Except PyEx (Bool × St)) : Except PyEx (Bool × St)) with
          | .ok r => .ok r
          | .error _ => .ok (false, st)

def setTaskField (tasks : List SprintTask) (id : String) (f : SprintTask → SprintTask) :
    List SprintTask :=
  tasks.map (fun t => if t.name = id then f t else t)

/-- A date value that compares after every real date, standing in for the
string `"9999-99-99"` used by the Python sort key. -/
def bigDeadline : Int := 999999999

def rowSortKey (env : Env) (t : TaskRow) : Nat × Int :=
  match t.deadline with
  | none => (1, bigDeadline)
  | some d => (if d < env.today then 0 else 1, d)

def rowLe (env : Env) (a b : TaskRow) : Bool :=
  let ka := rowSortKey env a
  let kb := rowSortKey env b
  ka.1 < kb.1 || (ka.1 = kb.1 && ka.2 ≤ kb.2)

/-- The shared loop of `send_remaining_tasks` / `send_my_tasks`: skip On Hold
tasks, count statuses, and build display rows. -/
structure Counts where
  not_started : Nat
  in_progress : Nat
  overdue : Nat
  on_hold : Nat
deriving DecidableEq

def countsJ (c : Counts) : Json :=
  jObj [("not_started", .num c.not_started), ("in_progress", .num c.in_progress),
        ("overdue", .num c.overdue), ("on_hold", .num c.on_hold)]

def tallyTasks (env : Env) : List SprintTask → List TaskRow × Counts
  | [] => ([], ⟨0, 0, 0, 0⟩)
  | t :: ts =>
    let (rows, c) := tallyTasks env ts
    if t.status = "On Hold" then (rows, { c with on_hold := c.on_hold + 1 })
    else
      let is_overdue := match t.deadline with
        | some d => decide (d < env.today)
        | none => false
      let c :=
        if is_overdue then { c with overdue := c.overdue + 1 }
        else if t.status = "Not Started" then { c with not_started := c.not_started + 1 }
        else if t.status = "In Progress" then { c with in_progress := c.in_progress + 1 }
        else c
      (⟨t.name, t.task_name, get_days_text env t.deadline, t.status, t.deadline⟩ :: rows, c)

/-- An `except Exception` that only logs: yields the produced state, or the
pre-`try` state plus a log entry. -/
def runLogged (st : St) (title pre : String) : Except PyEx St → St
  | .ok st' => st'
  | .error e => log_error st (pre ++ e) title

/-- An `except Exception` that logs and sends a reply on top of the pre-`try`
state. -/
def runCaught (st : St) (to_number whatsapp_account title pre msg : String) :
    Except PyEx St → St
  | .ok st' => st'
  | .error e =>
    send_reply (log_error st (pre ++ e) title) to_number msg whatsapp_account

/-- `send_remaining_tasks(to_number, assigned_to, whatsapp_account)` from
`handlers/task_handlers.py`; the `except` branch only logs. -/
def send_remaining_tasks (env : Env) (st : St) (to_number : String)
    (assigned_to : Option String) (whatsapp_account : String) : St :=
  let body : Except PyEx St :=
    (let remaining := st.tasks.filter
      (fun t => t.status ≠ "Completed" ∧ t.assigned_to = assigned_to)
    if remaining.isEmpty then
      let st := clear_context st to_number
      .ok (send_reply st to_number "🎉 *All tasks completed!*\n\nYou\x27re all caught up!"
        whatsapp_account)
    else
      let (task_list, status_counts) := tallyTasks env remaining
      if task_list.isEmpty then
        let st := clear_context st to_number
        let msg := "✅ No active tasks remaining!" ++
          (if 0 < status_counts.on_hold then
            "\n\n🟠 " ++ natStr status_counts.on_hold ++ " task" ++
              (if 1 < status_counts.on_hold then "s" else "") ++ " on hold"
           else "")
        .ok (send_reply st to_number msg whatsapp_account)
      else
        let sorted := insSort (rowLe env) task_list
        send_task_list_with_numbers st to_number sorted whatsapp_account "Remaining Tasks"
          (some (countsJ status_counts)))
  runLogged st "Task Alert Error" "Error sending remaining tasks: " body

/-- `handle_status_update(task_id, new_status, from_number, whatsapp_account)`
from `handlers/task_handlers.py`. -/
def handle_status_update (env : Env) (st : St) (task_id new_status from_number
    whatsapp_account : String) : St :=
  match st.tasks.find? (fun t => t.name = task_id) with
  | none => send_reply st from_number "❌ Task not found." whatsapp_account
  | some task_data =>
    let st := { st with
      tasks := setTaskField st.tasks task_id (fun t => { t with status := new_status }) }
    let st :=
      if new_status = "Completed" then
        { st with
          tasks := setTaskField st.tasks task_id
            (fun t => { t with completed_date := some env.today }) }
      else st
    let st := send_reply st from_number
      ("✅ *" ++ task_data.task_name ++ "*\n\nStatus updated to " ++
        get_status_display new_status) whatsapp_account
    send_remaining_tasks env st from_number task_data.assigned_to whatsapp_account

/-- `send_my_tasks(to_number, assigned_to, whatsapp_account)`. -/
def send_my_tasks (env : Env) (st : St) (to_number assigned_to whatsapp_account : String) : St :=
  let body : Except PyEx St :=
    (let tasks := st.tasks.filter
      (fun t => t.status ≠ "Completed" ∧ t.assigned_to = some assigned_to)
    if tasks.isEmpty then
      .ok (send_reply st to_number "✅ You have no pending tasks! Great job! 🎉"
        whatsapp_account)
    else
      let (my_tasks, status_counts) := tallyTasks env tasks
      if my_tasks.isEmpty then
        let msg := "✅ No active tasks!" ++
          (if 0 < status_counts.on_hold then
            "\n\n🟠 " ++ natStr status_counts.on_hold ++ " task" ++
              (if 1 < status_counts.on_hold then "s" else "") ++ " on hold"
           else "")
        .ok (send_reply st to_number msg whatsapp_account)
      else
        let sorted := insSort (rowLe env) my_tasks
        send_task_list_with_numbers st to_number sorted whatsapp_account "Your Pending Tasks"
          (some (countsJ status_counts)))
  runCaught st to_number whatsapp_account "Task Alert Error" "Error sending my tasks: "
    "❌ An error occurred. Please try again." body

/-! ## `confirmation_handlers.py` -/

/-- `str(x)` on a decoded JSON value (f-string semantics; containers do not
occur in the places this is used). -/
def jPyStr : Json → String
  | .str s => s
  | .num n => intStr n
  | .bool true => "True"
  | .bool false => "False"
  | .null => "None"
  | _ => ""

/-- A pending (not yet persisted) task dict. -/
structure PTask where
  task_name : String
  deadline : DateV
  assignee : String
  assignee_display : Option String
deriving DecidableEq

/-- The `{name, full_name, email}` user dicts carried by the ambiguous flow. -/
structure UserRef where
  name : String
  full_name : Option String
  email : Option String
deriving DecidableEq

def userRef (u : User) : UserRef := ⟨u.name, u.full_name, u.email⟩

/-- One entry of the ambiguous-assignee queue.  The `matches` key of the
Python dict is called `umatches` here because `matches` is reserved in Lean. -/
structure AmbTask where
  task_name : String
  deadline : DateV
  search_term : String
  umatches : List UserRef
deriving DecidableEq

def encodePT (t : PTask) : Json :=
  jObj [("task_name", .str t.task_name), ("deadline", .str t.deadline.pyStr),
        ("assignee", .str t.assignee), ("assignee_display", optStrJ t.assignee_display)]

def decodePT (j : Json) : Except PyEx PTask := do
  let tn ← jGetE j "task_name"
  let dl ← jGetE j "deadline"
  let asg ← jGetE j "assignee"
  let disp ← jGetE j "assignee_display"
  pure ⟨jPyStr tn,
    (match dl with
     | .str s => DateV.s s
     | .num n => DateV.d n
     | other => DateV.s (jPyStr other)),
    jPyStr asg,
    (match disp with
     | .null => none
     | v => some (jPyStr v))⟩

def decodePTs : List Json → Except PyEx (List PTask)
  | [] => .ok []
  | j :: js =>
    match decodePT j with
    | .error e => .error e
    | .ok t =>
      match decodePTs js with
      | .error e => .error e
      | .ok ts => .ok (t :: ts)

def encodeUserRef (m : UserRef) : Json :=
  jObj [("name", .str m.name), ("full_name", optStrJ m.full_name),
        ("email", optStrJ m.email)]

def decodeUserRef (j : Json) : Except PyEx UserRef := do
  let n ← asStrE (← jGetE j "name")
  let fn ← jGetE j "full_name"
  let em ← jGetE j "email"
  pure ⟨n, jOptStr fn, jOptStr em⟩

def decodeUserRefs : List Json → Except PyEx (List UserRef)
  | [] => .ok []
  | j :: js =>
    match decodeUserRef j with
    | .error e => .error e
    | .ok m =>
      match decodeUserRefs js with
      | .error e => .error e
      | .ok ms => .ok (m :: ms)

def encodeAmb (a : AmbTask) : Json :=
  jObj [("task_name", .str a.task_name), ("deadline", .str a.deadline.pyStr),
        ("search_term", .str a.search_term),
        ("matches", jArr (a.umatches.map encodeUserRef))]

def decodeAmb (j : Json) : Except PyEx AmbTask := do
  let tn ← jGetE j "task_name"
  let dl ← jGetE j "deadline"
  let term ← asStrE (← jGetE j "search_term")
  let msJ ← jGetE j "matches"
  let ms ← (if isA msJ then decodeUserRefs (jItems msJ)
            else .error "TypeError: expected list")
  pure ⟨jPyStr tn,
    (match dl with
     | .str s => DateV.s s
     | .num n => DateV.d n
     | other => DateV.s (jPyStr other)),
    term, ms⟩

def decodeAmbs : List Json → Except PyEx (List AmbTask)
  | [] => .ok []
  | j :: js =>
    match decodeAmb j with
    | .error e => .error e
    | .ok a =>
      match decodeAmbs js with
      | .error e => .error e
      | .ok as_ => .ok (a :: as_)

/-- The enumerated preview block of `show_task_confirmation`
(`getdate` on each stored deadline may raise). -/
def confirmListText (env : Env) : Nat → List PTask → Except PyEx String
  | _, [] => .ok ""
  | idx, t :: ts => do
    let day ← t.deadline.toDayE
    let rest ← confirmListText env (idx + 1) ts
    .ok (natStr idx ++ ". " ++ t.task_name ++ "\n   📅 " ++
      format_date_display env (some day) ++ " | 👤 " ++ pyShowOpt t.assignee_display ++
      "\n\n" ++ rest)

/-- `show_task_confirmation(tasks, from_number, whatsapp_account,
show_add_another=False)`: stores the batch under `pending_tasks` and sends
the preview with Confirm / Change-Deadline / Cancel (or Add-Another). -/
def show_task_confirmation (env : Env) (st : St) (tasks : List PTask)
    (from_number whatsapp_account : String) (show_add_another : Bool := false) :
    Except PyEx St := do
  let serializable_tasks := jArr (tasks.map encodePT)
  let st := set_context st from_number "pending_tasks" serializable_tasks
  let task_list ← confirmListText env 1 tasks
  let message := "📝 *Creating " ++ natStr tasks.length ++ " task" ++
    (if 1 < tasks.length then "s" else "") ++ ":*\n\n" ++ task_list
  let buttons :=
    if show_add_another then
      [Button.mk "CONFIRM_TASKS" "✅ Confirm All" none,
       Button.mk "ADD_ANOTHER_TASK" "➕ Add Another" none,
       Button.mk "CHANGE_DEADLINE" "📅 Change Deadline" none]
    else
      [Button.mk "CONFIRM_TASKS" "✅ Confirm All" none,
       Button.mk "CHANGE_DEADLINE" "📅 Change Deadline" none,
       Button.mk "CANCEL_TASKS" "❌ Cancel" none]
  pure (send_interactive_message st from_number message buttons whatsapp_account)

/-- The name `frappe` assigns to a freshly inserted `Sprint Board` document. -/
def newTaskName (st : St) : String := "SB-" ++ natStr st.tasks.length

/-- The field accesses `task["deadline"]` (through `getdate` when it is a
string), `task["task_name"]` and `task["assignee"]` done for each pending
task before its insert. -/
def insertParse (j : Json) : Except PyEx (String × String × Int) := do
  let dl ← jGetE j "deadline"
  let day ← (match dl with
    | .str s => getdateE s
    | .num n => .ok n
    | _ => .error "TypeError: deadline")
  let tn ← jGetE j "task_name"
  let asg ← jGetE j "assignee"
  pure (jPyStr tn, jPyStr asg, day)

/-- The `for task in tasks:` insertion loop inside `handle_task_confirmation`,
with partial effects kept when a creation throws (Python does not roll the
loop back; the surrounding `except` fires afterwards). -/
def insertLoop (env : Env) (created_by : String) (st : St) :
    List Json → St × Option PyEx
  | [] => (st, none)
  | j :: js =>
    match insertParse j with
    | .error e => (st, some e)
    | .ok (tn, asg, day) =>
      if env.insertFails tn then (st, some "frappe: insert failed")
      else
        let doc : SprintTask :=
          { name := newTaskName st, task_name := tn, status := "Not Started",
            assigned_to := some asg, deadline := some day, created_by := created_by,
            created_on := env.today, completed_date := none }
        insertLoop env created_by { st with tasks := st.tasks ++ [doc] } js

/-- The summary lines `1. name ⚫` of the success reply. -/
def confirmSummary : Nat → List Json → String
  | _, [] => ""
  | idx, j :: js =>
    natStr idx ++ ". " ++ jPyStr (jGetD j "task_name" .null) ++ " ⚫\n" ++
      confirmSummary (idx + 1) js

/-- The `ASSIGN_USER:` button rows of `handle_ambiguous_users`:
`display_name[:20]` raises if a match has neither `full_name` nor `email`. -/
def assignButtons : List UserRef → Except PyEx (List Button)
  | [] => .ok []
  | m :: ms => do
    let display ← (match pyOrS m.full_name m.email with
      | some s => .ok (pyTake 20 s)
      | none => .error "TypeError: NoneType is not subscriptable")
    let rest ← assignButtons ms
    .ok (Button.mk ("ASSIGN_USER:" ++ m.name) display none :: rest)

/-- `handle_task_confirmation(action, from_number, whatsapp_account)`. -/
def handle_task_confirmation (env : Env) (st : St) (action from_number whatsapp_account :
    String) : Except PyEx St := do
  let tasks? ← get_context_data st.contexts from_number (some "pending_tasks")
  let tasksOk := match tasks? with
    | some t => if jTruthy t then some t else none
    | none => none
  match tasksOk with
  | none =>
    pure (send_reply st from_number "❌ No pending tasks found. Please start again."
      whatsapp_account)
  | some tasksJ =>
    if action = "CANCEL_TASKS" then
      let st := clear_context st from_number
      pure (send_reply st from_number "❌ Task creation cancelled." whatsapp_account)
    else if action = "CONFIRM_TASKS" then do
      let current_user := get_user_by_phone env from_number
      let created_by := match current_user with
        | some u => u.name
        | none => "Administrator"
      let items ← (if isA tasksJ then .ok (jItems tasksJ)
                   else .error "TypeError: not iterable")
      match insertLoop env created_by st items with
      | (st₁, some e) =>
        -- `except Exception`: log and report failure; context untouched
        let st₂ := log_error st₁ ("Error creating tasks: " ++ e) "Task Creation Error"
        pure (send_reply st₂ from_number "❌ Error creating tasks. Please try again."
          whatsapp_account)
      | (st₁, none) =>
        let st₂ := clear_context st₁ from_number
        let task_list := confirmSummary 1 items
        let st₃ := send_reply st₂ from_number
          ("✅ *" ++ natStr items.length ++ " task" ++
            (if 1 < items.length then "s" else "") ++ " created!*\n\n" ++ task_list)
          whatsapp_account
        match current_user with
        | some u => pure (send_my_tasks env st₃ from_number u.name whatsapp_account)
        | none => pure st₃
    else pure st

/-- The `pending_data` dict stored under `pending_task_assign`. -/
def pendingAssignData (task_info : AmbTask) (confirmed_tasks : List PTask)
    (remaining_ambiguous : List AmbTask) : Json :=
  jObj
    [("task_info", jObj
      [("task_name", .str task_info.task_name),
       ("deadline", .str task_info.deadline.pyStr),
       ("search_term", .str task_info.search_term),
       ("matches", jArr (task_info.umatches.map encodeUserRef))]),
     ("confirmed_tasks", jArr (confirmed_tasks.map encodePT)),
     ("remaining_ambiguous", jArr (remaining_ambiguous.map encodeAmb))]

/-- `handle_ambiguous_users(task_info, from_number, whatsapp_account,
confirmed_tasks, remaining_ambiguous)`: zero matches sends the
"was not created" notice and returns, dropping the whole resolution;
otherwise the chain state is stored under `pending_task_assign` and up to
three candidates are offered. -/
def handle_ambiguous_users (st : St) (task_info : AmbTask)
    (from_number whatsapp_account : String) (confirmed_tasks : List PTask)
    (remaining_ambiguous : List AmbTask) : Except PyEx St := do
  let ms := task_info.umatches
  if ms.isEmpty then
    pure (send_reply st from_number
      ("❌ User \x27" ++ task_info.search_term ++ "\x27 not found.\n\nTask \x27" ++
        task_info.task_name ++ "\x27 was not created.\nPlease check the username and try again.")
      whatsapp_account)
  else
    let pending_data := pendingAssignData task_info confirmed_tasks remaining_ambiguous
    let st := set_context st from_number "pending_task_assign" pending_data
    let buttons ← assignButtons (ms.take 3)
    let message := "👤 User \x27" ++ task_info.search_term ++ "\x27 not found.\n\nFor task: *" ++
      task_info.task_name ++ "*\n\nDid you mean:"
    pure (send_interactive_message st from_number message buttons whatsapp_account)

/-- `handle_user_selection(user_name, from_number, whatsapp_account)`. -/
def handle_user_selection (env : Env) (st : St)
    (user_name from_number whatsapp_account : String) : Except PyEx St := do
  let data? ← get_context_data st.contexts from_number (some "pending_task_assign")
  let dataOk := match data? with
    | some d => if jTruthy d then some d else none
    | none => none
  match dataOk with
  | none =>
    pure (send_reply st from_number "❌ Session expired. Please start again."
      whatsapp_account)
  | some data => do
    let task_info ← jGetE data "task_info"
    let confirmedJ ← jGetE data "confirmed_tasks"
    let remainingJ ← jGetE data "remaining_ambiguous"
    let confirmed_tasks ← (if isA confirmedJ then decodePTs (jItems confirmedJ)
                           else .error "TypeError: expected list")
    let remaining_ambiguous ← (if isA remainingJ then decodeAmbs (jItems remainingJ)
                               else .error "TypeError: expected list")
    let user_doc := env.users.find? (fun u => u.name = user_name)
    -- `user_doc["full_name"] or user_doc["email"] if user_doc else user_name`
    -- (the conditional expression scopes over the whole `or`)
    let assignee_display : Option String := match user_doc with
      | some u => pyOrS u.full_name u.email
      | none => some user_name
    let dlJ ← jGetE task_info "deadline"
    let tnJ ← jGetE task_info "task_name"
    let newTask : PTask :=
      ⟨jPyStr tnJ, .s (jPyStr dlJ), user_name, assignee_display⟩
    let confirmed_tasks := confirmed_tasks ++ [newTask]
    let st := clear_context st from_number
    match remaining_ambiguous with
    | next :: rest =>
      handle_ambiguous_users st next from_number whatsapp_account confirmed_tasks rest
    | [] =>
      show_task_confirmation env st confirmed_tasks from_number whatsapp_account

/-! ## `creation_handlers.py` -/

def TASK_CREATE_TRIGGERS : List String :=
  ["add tasks", "add task", "new task", "new tasks", "new"]

/-- `is_task_creation_trigger(message)`: first trigger that the stripped,
lower-cased message starts with (`None` otherwise). -/
def is_task_creation_trigger (message : String) : Option String :=
  TASK_CREATE_TRIGGERS.find? (fun trigger => pyStartsWith (pyLower (pyStrip message)) trigger)

/-- `haystack.find(needle)` as an `Option Nat` (Python returns `-1`). -/
def findSub : List Char → List Char → Option Nat
  | hay, needle =>
    match hay with
    | [] => if needle.isEmpty then some 0 else none
    | c :: r =>
      if startsWithL needle (c :: r) then some 0
      else (findSub r needle).map (· + 1)

/-- `get_task_lines(message, trigger)`: text after the trigger, split into
stripped non-empty lines. -/
def get_task_lines (message trigger : String) : List String :=
  match findSub (pyLower message).data trigger.data with
  | none => []
  | some trigger_pos =>
    let remaining := pyStrip (pyDrop (trigger_pos + trigger.data.length) message)
    if remaining = "" then []
    else ((pySplit '\n' remaining).map pyStrip).filter (fun l => l ≠ "")

/-- The dict returned by `parse_task_line`. -/
structure ParsedLine where
  task_name : String
  deadline_str : Option String
  assignee_str : Option String
deriving DecidableEq

/-- `parse_task_line(line)`: split on `|`; the first part is the name, a part
starting with `@` sets the assignee (last wins), anything else the deadline. -/
def parse_task_line (line : String) : ParsedLine :=
  let parts := (pySplit '|' line).map pyStrip
  let task_name := parts.headD ""
  parts.tail.foldl
    (fun acc part =>
      if pyStartsWith part "@" then { acc with assignee_str := some (pyDrop 1 part) }
      else { acc with deadline_str := some part })
    ⟨task_name, none, none⟩

/-- `send_format_sample(to_number, whatsapp_account)`. -/
def send_format_sample (st : St) (to_number whatsapp_account : String) : St :=
  send_reply st to_number
    ("📝 *Create New Tasks*\n\nSend task names, one per line:\n`task name | deadline | @assignee`\n\n*Examples:*\n```\nadd tasks\nFix login bug\nUpdate dashboard | tomorrow\nReview PR | Feb 10 | @john@email.com\n```\n\n📅 Deadline & 👤 assignee are optional.\nDefaults: Today, assigned to you.")
    whatsapp_account

/-- The `for line in task_lines:` loop of `handle_task_creation_trigger`:
accumulates confirmed tasks and the ambiguous-assignee queue in input order. -/
def processLines (env : Env) (current_user : User) :
    List String → List PTask × List AmbTask
  | [] => ([], [])
  | line :: rest =>
    let (pts, ambs) := processLines env current_user rest
    let parsed := parse_task_line line
    if parsed.task_name = "" then (pts, ambs)
    else
      let deadline := parse_date env parsed.deadline_str
      -- `if parsed["assignee_str"]:` — an empty assignee string is falsy
      if strTruthy parsed.assignee_str then
        let astr := parsed.assignee_str.getD ""
        match fuzzy_search_user env astr with
        | [m] =>
          (⟨parsed.task_name, .d deadline, m.name, pyOrS m.full_name m.email⟩ :: pts, ambs)
        | ms =>
          if 1 < ms.length then
            (pts, ⟨parsed.task_name, .d deadline, astr, ms.map userRef⟩ :: ambs)
          else
            (pts, ⟨parsed.task_name, .d deadline, astr, []⟩ :: ambs)
      else
        (⟨parsed.task_name, .d deadline, current_user.name,
          pyOrS current_user.full_name current_user.email⟩ :: pts, ambs)

/-- `handle_task_creation_trigger(message, from_number, whatsapp_account)`. -/
def handle_task_creation_trigger (env : Env) (st : St)
    (message from_number whatsapp_account : String) : Except PyEx (Bool × St) :=
  match is_task_creation_trigger message with
  | none => .ok (false, st)
  | some trigger =>
    let task_lines := get_task_lines message trigger
    if task_lines.isEmpty then
      .ok (true, send_format_sample st from_number whatsapp_account)
    else
      match get_user_by_phone env from_number with
      | none =>
        .ok (true, send_reply st from_number
          "❌ Your phone number is not linked to any user account. Please update your profile."
          whatsapp_account)
      | some current_user =>
        let (parsed_tasks, needs_user_confirmation) := processLines env current_user task_lines
        match needs_user_confirmation with
        | first :: remaining => do
          let st ← handle_ambiguous_users st first from_number whatsapp_account
            parsed_tasks remaining
          .ok (true, st)
        | [] =>
          if parsed_tasks.isEmpty then .ok (true, st)
          else do
            let st ← show_task_confirmation env st parsed_tasks from_number whatsapp_account
            .ok (true, st)

/-- The context payload written by `handle_menu_add_task`. -/
def initGuidedCtx : Json :=
  jObj [("step", .str "name"), ("tasks", jArr []), ("current", jObj [])]

/-- `handle_menu_add_task(from_number, whatsapp_account)`: starts the guided
flow at the name step. -/
def handle_menu_add_task (env : Env) (st : St) (from_number whatsapp_account : String) : St :=
  match get_user_by_phone env from_number with
  | none =>
    send_reply st from_number
      "❌ Your phone number is not linked to any user account. Please update your profile."
      whatsapp_account
  | some _ =>
    let st := set_context st from_number "guided_flow" initGuidedCtx
    send_reply st from_number
      "📝 *Create New Task*\n\nStep 1 of 3: *Task Name*\n\nWhat\x27s the task? Send the task name.\n\n💡 _You can also type `cancel` to exit._"
      whatsapp_account

/-- `_handle_step_task_name(message, from_number, whatsapp_account,
context_data)`. -/
def handle_step_task_name (st : St) (message from_number whatsapp_account : String)
    (context_data : Json) : Bool × St :=
  let task_name := pyStrip message
  if task_name = "" then
    (true, send_reply st from_number "❌ Please enter a valid task name." whatsapp_account)
  else
    let ctx := jSet "current" (jObj [("task_name", .str task_name)])
      (jSet "step" (.str "deadline") context_data)
    let st := set_context st from_number "guided_flow" ctx
    let buttons := [Button.mk "GUIDED_TODAY" "📅 Today" none,
                    Button.mk "GUIDED_TOMORROW" "📅 Tomorrow" none]
    (true, send_interactive_message st from_number
      ("✅ Task: *" ++ task_name ++ "*\n\nStep 2 of 3: *Deadline*\n\nWhen is this due? Choose an option or type a date.\n\n💡 _Examples: `next friday`, `Feb 15`, `in 3 days`_")
      buttons whatsapp_account)

/-- `_handle_step_deadline(message, from_number, whatsapp_account,
context_data=None)`; `user_display[:17]` raises when the linked user has
neither full name nor email. -/
def handle_step_deadline (env : Env) (st : St)
    (message from_number whatsapp_account : String) (context_data : Option Json) :
    Except PyEx (Bool × St) := do
  let ctx? ← (match context_data with
    | some c => .ok (some c)
    | none => do
      let c? ← get_context_data st.contexts from_number (some "guided_flow")
      pure (match c? with
        | some c => if jTruthy c then some c else none
        | none => none))
  match ctx? with
  | none => .ok (false, st)
  | some ctx => do
    let deadline := parse_date env (some message)
    let deadline_display := format_date_display env (some deadline)
    let current ← jGetE ctx "current"
    let current := jSet "deadline" (.str (intStr deadline)) current
    let ctx := jSet "current" current (jSet "step" (.str "assignee") ctx)
    let st := set_context st from_number "guided_flow" ctx
    let current_user := get_user_by_phone env from_number
    -- `current_user["full_name"] or current_user["email"] if current_user else "Me"`
    let user_display ← (match current_user with
      | some u =>
        match pyOrS u.full_name u.email with
        | some s => .ok s
        | none => .error "TypeError: NoneType is not subscriptable"
      | none => .ok "Me")
    let buttons := [Button.mk "GUIDED_ASSIGN_ME" ("👤 " ++ pyTake 17 user_display) none]
    let tn ← jGetE current "task_name"
    .ok (true, send_interactive_message st from_number
      ("✅ Task: *" ++ jPyStr tn ++ "*\n📅 Deadline: *" ++ deadline_display ++ "*\n\nStep 3 of 3: *Assignee*\n\nWho should do this task?\n\n💡 _Type a name or email to search, or tap the button below._")
      buttons whatsapp_account)

/-- `_finalize_guided_task(from_number, whatsapp_account, assignee,
assignee_display)`: appends `current` to the accumulated tasks and hands the
batch to `show_task_confirmation`.  `current["task_name"]` raises `KeyError`
when the current task has not been through the name step. -/
def finalize_guided_task (env : Env) (st : St)
    (from_number whatsapp_account assignee : String) (assignee_display : Option String) :
    Except PyEx (Bool × St) := do
  let c? ← get_context_data st.contexts from_number (some "guided_flow")
  let ctx? := match c? with
    | some c => if jTruthy c then some c else none
    | none => none
  match ctx? with
  | none => .ok (false, st)
  | some ctx => do
    let current := jGetD ctx "current" (jObj [])
    let tasksJ := jGetD ctx "tasks" (jArr [])
    let tn ← jGetE current "task_name"
    let dl ← jGetE current "deadline"
    let prev ← (if isA tasksJ then decodePTs (jItems tasksJ)
                else .error "TypeError: expected list")
    let tasks := prev ++ [⟨jPyStr tn, .s (jPyStr dl), assignee, assignee_display⟩]
    let st := clear_context st from_number
    let st ← show_task_confirmation env st tasks from_number whatsapp_account true
    .ok (true, st)

/-- The `GUIDED_ASSIGNEE:` button rows of `_handle_step_assignee`;
`display_name[:20]` raises when a match has neither full name nor email. -/
def guidedAssigneeButtons : List User → Except PyEx (List Button)
  | [] => .ok []
  | m :: ms => do
    let display ← (match pyOrS m.full_name m.email with
      | some s => .ok (pyTake 20 s)
      | none => .error "TypeError: NoneType is not subscriptable")
    let rest ← guidedAssigneeButtons ms
    .ok (Button.mk ("GUIDED_ASSIGNEE:" ++ m.name) display none :: rest)

/-- `_handle_step_assignee(message, from_number, whatsapp_account,
context_data=None)`. -/
def handle_step_assignee (env : Env) (st : St)
    (message from_number whatsapp_account : String) (context_data : Option Json) :
    Except PyEx (Bool × St) := do
  let ctx? ← (match context_data with
    | some c => .ok (some c)
    | none => do
      let c? ← get_context_data st.contexts from_number (some "guided_flow")
      pure (match c? with
        | some c => if jTruthy c then some c else none
        | none => none))
  match ctx? with
  | none => .ok (false, st)
  | some _ =>
    match fuzzy_search_user env message with
    | [] =>
      .ok (true, send_reply st from_number
        ("❌ User \x27" ++ message ++ "\x27 not found. Please try again or type a different name.")
        whatsapp_account)
    | [m] =>
      finalize_guided_task env st from_number whatsapp_account m.name
        (pyOrS m.full_name m.email)
    | ms => do
      -- two or more matches: offer up to three buttons
      let rest ← guidedAssigneeButtons (ms.take 3)
      .ok (true, send_interactive_message st from_number
        ("👤 Multiple matches for \x27" ++ message ++ "\x27:\n\nPlease select the correct person:")
        rest whatsapp_account)

/-- `handle_guided_assignee_button(user_name, from_number, whatsapp_account)`. -/
def handle_guided_assignee_button (env : Env) (st : St)
    (user_name from_number whatsapp_account : String) : Except PyEx St := do
  let current_user := get_user_by_phone env from_number
  if user_name = "ME" then
    match current_user with
    | none =>
      .ok (send_reply st from_number "❌ Your phone is not linked to a user account."
        whatsapp_account)
    | some u => do
      let (_, st) ← finalize_guided_task env st from_number whatsapp_account u.name
        (pyOrS u.full_name u.email)
      .ok st
  else
    -- `frappe.db.get_value("User", user_name, ["full_name", "email"])`
    match env.users.find? (fun u => u.name = user_name) with
    | none => .ok (send_reply st from_number "❌ User not found." whatsapp_account)
    | some u => do
      let (_, st) ← finalize_guided_task env st from_number whatsapp_account user_name
        (pyOrS u.full_name u.email)
      .ok st

/-- `handle_guided_deadline_button(deadline_type, from_number, whatsapp_account)`. -/
def handle_guided_deadline_button (env : Env) (st : St)
    (deadline_type from_number whatsapp_account : String) : Except PyEx St :=
  if deadline_type = "TODAY" then do
    let (_, st) ← handle_step_deadline env st "today" from_number whatsapp_account none
    .ok st
  else if deadline_type = "TOMORROW" then do
    let (_, st) ← handle_step_deadline env st "tomorrow" from_number whatsapp_account none
    .ok st
  else .ok st

/-- `handle_guided_flow_input(message, from_number, whatsapp_account)`. -/
def handle_guided_flow_input (env : Env) (st : St)
    (message from_number whatsapp_account : String) : Except PyEx (Bool × St) := do
  let c? ← get_context_data st.contexts from_number (some "guided_flow")
  let ctx? := match c? with
    | some c => if jTruthy c then some c else none
    | none => none
  match ctx? with
  | none => .ok (false, st)
  | some ctx =>
    let step := jGetD ctx "step" .null
    if jTruthy step then
      if pyLower (pyStrip message) = "cancel" then
        let st := clear_context st from_number
        .ok (true, send_reply st from_number "❌ Task creation cancelled." whatsapp_account)
      else if step = .str "name" then
        .ok (handle_step_task_name st message from_number whatsapp_account ctx)
      else if step = .str "deadline" then
        handle_step_deadline env st message from_number whatsapp_account (some ctx)
      else if step = .str "assignee" then
        handle_step_assignee env st message from_number whatsapp_account (some ctx)
      else .ok (false, st)
    else .ok (false, st)

/-! ## `menu_handlers.py` -/

def STATUS_FILTER_TRIGGERS : List (String × String) :=
  [("not started", "Not Started"), ("in progress", "In Progress"), ("on hold", "On Hold")]

def SPECIAL_FILTER_TRIGGERS : List String := ["today", "overdue", "change"]

def GUIDE_TRIGGER : String := "guide"

/-- `send_overdue_review_flow` is imported by `menu_handlers.py` from
`.task_handlers`, but no function of that name is defined anywhere in the
repository (`task_handlers.py` has no such definition, nor does any other
module).  Resolving the name therefore raises, which is modelled as an
unconditional exception. -/
def send_overdue_review_flow (st : St) (to_number assigned_to whatsapp_account : String) :
    Except PyEx St :=
  .error "ImportError: cannot import name \x27send_overdue_review_flow\x27 from task_handlers"

/-- `send_overdue_tasks(to_number, assigned_to, whatsapp_account)`: delegates
to the (missing) review flow; its `except` logs and sends a generic error. -/
def send_overdue_tasks (st : St) (to_number assigned_to whatsapp_account : String) : St :=
  match send_overdue_review_flow st to_number assigned_to whatsapp_account with
  | .ok st => st
  | .error e =>
    send_reply (log_error st ("Error starting overdue review: " ++ e) "Task Alert Error")
      to_number "❌ An error occurred. Please try again." whatsapp_account

/-- The counting/filtering loop of `send_filtered_tasks`: every incomplete
task is counted (On Hold first, then overdue, then by status) and the rows
keep only the tasks whose status equals the filter. -/
def tallyFiltered (env : Env) (status : String) :
    List SprintTask → List TaskRow × Counts
  | [] => ([], ⟨0, 0, 0, 0⟩)
  | t :: ts =>
    let (rows, c) := tallyFiltered env status ts
    let is_overdue := match t.deadline with
      | some d => decide (d < env.today)
      | none => false
    let c :=
      if t.status = "On Hold" then { c with on_hold := c.on_hold + 1 }
      else if is_overdue then { c with overdue := c.overdue + 1 }
      else if t.status = "Not Started" then { c with not_started := c.not_started + 1 }
      else if t.status = "In Progress" then { c with in_progress := c.in_progress + 1 }
      else c
    let rows :=
      if t.status = status then
        (⟨t.name, t.task_name, get_days_text env t.deadline, t.status, t.deadline⟩ : TaskRow)
          :: rows
      else rows
    (rows, c)

/-- The `sort_key` of `send_filtered_tasks`: missing deadlines sort last
(`"9999-99-99"`), otherwise the ISO date string, whose lexicographic order
coincides with date order; modelled directly on day numbers. -/
def filteredLe (a b : TaskRow) : Bool :=
  a.deadline.getD bigDeadline ≤ b.deadline.getD bigDeadline

/-- `send_filtered_tasks(to_number, assigned_to, status, whatsapp_account)`. -/
def send_filtered_tasks (env : Env) (st : St)
    (to_number assigned_to status whatsapp_account : String) : St :=
  let st := send_typing_indicator st to_number whatsapp_account
  let all_tasks := st.tasks.filter
    (fun t => t.status ≠ "Completed" ∧ t.assigned_to = some assigned_to)
  let (task_list, status_counts) := tallyFiltered env status all_tasks
  if task_list.isEmpty then
    send_reply st to_number
      ("✅ No tasks with status *" ++ get_status_display status ++ "*") whatsapp_account
  else
    let task_list := insSort filteredLe task_list
    let exclude_status :=
      ([("Not Started", "not_started"), ("In Progress", "in_progress"),
        ("On Hold", "on_hold")].find? (fun p => p.1 = status)).map (·.2)
    match send_task_list_with_numbers st to_number task_list whatsapp_account
      ("Tasks - " ++ get_status_display status) (some (countsJ status_counts))
      exclude_status with
    | .ok st => st
    | .error e =>
      send_reply (log_error st ("Error sending filtered tasks: " ++ e) "Task Alert Error")
        to_number "❌ An error occurred. Please try again." whatsapp_account

/-- The counting/filtering loop of `send_today_tasks`. -/
def tallyToday (env : Env) : List SprintTask → List TaskRow × Counts
  | [] => ([], ⟨0, 0, 0, 0⟩)
  | t :: ts =>
    let (rows, c) := tallyToday env ts
    let is_today := match t.deadline with
      | some d => decide (d = env.today)
      | none => false
    let is_overdue := match t.deadline with
      | some d => decide (d < env.today)
      | none => false
    let c :=
      if t.status = "On Hold" then { c with on_hold := c.on_hold + 1 }
      else if is_overdue then { c with overdue := c.overdue + 1 }
      else if t.status = "Not Started" then { c with not_started := c.not_started + 1 }
      else if t.status = "In Progress" then { c with in_progress := c.in_progress + 1 }
      else c
    let rows :=
      if is_today && t.status != "On Hold" then
        (⟨t.name, t.task_name, get_days_text env t.deadline, t.status, t.deadline⟩ : TaskRow)
          :: rows
      else rows
    (rows, c)

/-- The `sort_key` of `send_today_tasks` (In Progress first, Not Started
second, everything else after). -/
def todayLe (a b : TaskRow) : Bool :=
  let ord : String → Nat := fun s =>
    if s = "In Progress" then 0 else if s = "Not Started" then 1 else 2
  ord a.status ≤ ord b.status

/-- `send_today_tasks(to_number, assigned_to, whatsapp_account)`. -/
def send_today_tasks (env : Env) (st : St)
    (to_number assigned_to whatsapp_account : String) : St :=
  let st := send_typing_indicator st to_number whatsapp_account
  let all_tasks := st.tasks.filter
    (fun t => t.status ≠ "Completed" ∧ t.assigned_to = some assigned_to)
  let (task_list, status_counts) := tallyToday env all_tasks
  if task_list.isEmpty then
    send_reply st to_number "✅ No tasks due today!" whatsapp_account
  else
    let task_list := insSort todayLe task_list
    match send_task_list_with_numbers st to_number task_list whatsapp_account
      "📅 Tasks Due Today" (some (countsJ status_counts)) none with
    | .ok st => st
    | .error e =>
      send_reply (log_error st ("Error sending today tasks: " ++ e) "Task Alert Error")
        to_number "❌ An error occurred. Please try again." whatsapp_account

/-- `send_guide(to_number, whatsapp_account)`. -/
def send_guide (st : St) (to_number whatsapp_account : String) : St :=
  let st := send_typing_indicator st to_number whatsapp_account
  send_reply st to_number
    ("📖 *Task Manager - Complete Guide*\n━━━━━━━━━━━━━━━━━━━━━━\n\n🔹 *VIEW YOUR TASKS*\n• Type `my tasks` or `my` to see all your pending tasks\n• Type `today` to see tasks due today\n• Type `overdue` to see overdue tasks\n• Type `not started`, `in progress`, or `on hold` to filter by status\n\n🔹 *CREATE TASKS*\nType `new` or `add tasks` followed by task details:\n```\nnew\nTask name ... deadline ... assignee\n```\n*Examples:*\n• `new Fix bug` - Creates task for today, assigned to you\n• `new Fix bug ... tomorrow` - Due tomorrow\n• `new Fix bug ... Feb 10 ... Raj` - Assigned to Raj\n\n📝 *Create multiple tasks at once:*\n```\nnew\nTask 1\nTask 2 ... tomorrow\nTask 3 ... next week ... John\n```\n\n🔹 *UPDATE TASKS*\n1. Type `my tasks` to see your tasks\n2. Select a task or type its number\n3. Choose a new status from the buttons\n4. Type `change` to change deadline instead\n\n🔹 *QUICK COMMANDS*\n• `menu` or `help` - Show main menu\n• `guide` - Show this guide\n• `more` - Load more tasks (when list is long)\n• `change` - Change deadline of selected task\n\n🔹 *DATE FORMATS*\nYou can use natural language dates:\n• `today`, `tomorrow`, `yesterday`\n• `next monday`, `this friday`\n• `Feb 10`, `10 Feb`, `2/10`\n• `in 3 days`, `in 2 weeks`\n\n🔹 *STATUS LEGEND*\n⚫ Not Started\n🔵 In Progress\n🟢 Completed\n🟠 On Hold\n🔴 Overdue")
    whatsapp_account

/-- `handle_change_deadline_for_task(from_number, task_id, whatsapp_account)`. -/
def handle_change_deadline_for_task (env : Env) (st : St)
    (from_number task_id whatsapp_account : String) : St :=
  let st := send_typing_indicator st from_number whatsapp_account
  match st.tasks.find? (fun t => t.name = task_id) with
  | none => send_reply st from_number "❌ Task not found." whatsapp_account
  | some task_data =>
    let deadline_display := match task_data.deadline with
      | some d => format_date_display env (some d)
      | none => "Not set"
    let buttons := [Button.mk "DEADLINE_TODAY" "📅 Today" none,
                    Button.mk "DEADLINE_TOMORROW" "📅 Tomorrow" none]
    send_interactive_message st from_number
      ("📋 *Task:* " ++ task_data.task_name ++ "\n📅 *Current Deadline:* " ++
        deadline_display ++
        "\n\nSelect new deadline or type a date:\n\n💡 _Examples: `next friday`, `Feb 15`, `in 3 days`_")
      buttons whatsapp_account

/-- `handle_status_filter_trigger(message, from_number, whatsapp_account)`. -/
def handle_status_filter_trigger (env : Env) (st : St)
    (message from_number whatsapp_account : String) : Except PyEx (Bool × St) :=
  let message_lower := pyLower (pyStrip message)
  if message_lower = GUIDE_TRIGGER then
    .ok (true, send_guide st from_number whatsapp_account)
  else
    match get_user_by_phone env from_number with
    | none =>
      if (STATUS_FILTER_TRIGGERS.find? (fun p => p.1 = message_lower)).isSome ∨
          message_lower ∈ SPECIAL_FILTER_TRIGGERS then
        .ok (true, send_reply st from_number
          "❌ Your phone number is not linked to any user account." whatsapp_account)
      else .ok (false, st)
    | some current_user =>
      match STATUS_FILTER_TRIGGERS.find? (fun p => p.1 = message_lower) with
      | some (_, status) =>
        .ok (true, send_filtered_tasks env st from_number current_user.name status
          whatsapp_account)
      | none =>
        if message_lower = "today" then
          .ok (true, send_today_tasks env st from_number current_user.name whatsapp_account)
        else if message_lower = "overdue" then
          .ok (true, send_overdue_tasks st from_number current_user.name whatsapp_account)
        else if message_lower = "change" then do
          let context ← get_context_data st.contexts from_number (some "deadline_edit_task")
          let task_id : Option Json := match context with
            | some c => if jTruthy c then jGet "task_id" c else none
            | none => none
          match task_id with
          | some v =>
            if jTruthy v then
              .ok (true, handle_change_deadline_for_task env st from_number (jPyStr v)
                whatsapp_account)
            else
              .ok (true, send_reply st from_number
                "❌ No task selected. Please select a task first from your task list."
                whatsapp_account)
          | none =>
            .ok (true, send_reply st from_number
              "❌ No task selected. Please select a task first from your task list."
              whatsapp_account)
        else .ok (false, st)

/-! ## Claim analysis

Fixtures and helper lemmas shared by the claim theorems below. -/

/-- The empty system state: no contexts, no tasks, no outbox, no logs. -/
def st0 : St := ⟨fun _ => none, [], [], []⟩

/-- A minimal environment: day 100, no users, failing external date parser,
inserts never fail. -/
def env0 : Env := ⟨100, [], fun _ => none, fun _ => false, fun _ => ""⟩

/-- Reading a stored context record whose data decodes. -/
theorem get_context_data_of_eq {store : CtxStore} {p t d : String} {j : Json}
    (h : store p = some ⟨t, d⟩) (hl : loads d = some j) :
    get_context_data store p (some t) = .ok (some j) := by
  simp [get_context_data, get_context, h, hl]

theorem jTruthy_jArr (l : List Json) : jTruthy (jArr l) = !l.isEmpty := by
  cases l <;> rfl

theorem jTruthy_jObj_cons (kv : String × Json) (l : List (String × Json)) :
    jTruthy (jObj (kv :: l)) = true := rfl

theorem wfJ_optStrJ (o : Option String) : wfJ (optStrJ o) = true := by
  cases o <;> rfl

theorem wfJ_encodePT (t : PTask) : wfJ (encodePT t) = true := by
  apply wfJ_jObj
  intro kv hkv
  simp only [encodePT, List.mem_cons, List.not_mem_nil, or_false] at hkv
  rcases hkv with h | h | h | h <;> subst h <;>
    first
      | rfl
      | exact wfJ_optStrJ t.assignee_display

theorem wfJ_encodeUserRef (m : UserRef) : wfJ (encodeUserRef m) = true := by
  apply wfJ_jObj
  intro kv hkv
  simp only [encodeUserRef, List.mem_cons, List.not_mem_nil, or_false] at hkv
  rcases hkv with h | h | h <;> subst h <;>
    first
      | rfl
      | exact wfJ_optStrJ m.full_name
      | exact wfJ_optStrJ m.email

theorem wfJ_encodeUserRefs (ms : List UserRef) :
    wfJ (jArr (ms.map encodeUserRef)) = true := by
  apply wfJ_jArr
  intro x hx
  simp only [List.mem_map] at hx
  obtain ⟨m, _, rfl⟩ := hx
  exact wfJ_encodeUserRef m

theorem wfJ_encodePTs (ts : List PTask) : wfJ (jArr (ts.map encodePT)) = true := by
  apply wfJ_jArr
  intro x hx
  simp only [List.mem_map] at hx
  obtain ⟨t, _, rfl⟩ := hx
  exact wfJ_encodePT t

theorem wfJ_encodeAmb (a : AmbTask) : wfJ (encodeAmb a) = true := by
  apply wfJ_jObj
  intro kv hkv
  simp only [encodeAmb, List.mem_cons, List.not_mem_nil, or_false] at hkv
  rcases hkv with h | h | h | h
  · subst h; rfl
  · subst h; rfl
  · subst h; rfl
  · subst h; exact wfJ_encodeUserRefs a.umatches

/-- C1 counterexample: after storing a `deadline_edit_task` context and then
a `task_list_context` context for the same phone number, the
`deadline_edit_task` context is no longer readable — the store keeps a single
record per phone number, so contexts of different types do not coexist. -/
theorem claim1_cex :
    get_context_data
      (set_context
        (set_context st0 "15551234567" "deadline_edit_task"
          (jObj [("task_id", Json.str "SB-1")]))
        "15551234567" "task_list_context" (jObj [("page", Json.num 0)])).contexts
      "15551234567" (some "deadline_edit_task") = .ok none := by
  rfl

/-- C1 (corrected): the context store keeps at most one record per phone
number, not one per (phone, context_type): writing a context of type `t2`
after one of type `t1 ≠ t2` for the same phone makes the `t1` context
unreadable (it returns `None`) while the `t2` context holds the new payload. -/
theorem claim1_single_record_per_phone (st : St) (p t1 t2 : String) (d1 d2 : Json)
    (hw2 : wfJ d2 = true) (hns2 : ∀ s, d2 ≠ .str s) (h12 : t1 ≠ t2)
    (h1 : t1 ≠ "") (h2 : t2 ≠ "") :
    get_context_data (set_context (set_context st p t1 d1) p t2 d2).contexts p (some t1)
        = .ok none ∧
    get_context_data (set_context (set_context st p t1 d1) p t2 d2).contexts p (some t2)
        = .ok (some d2) :=
  ⟨get_context_data_set_other_type (set_context st p t1 d1) p t2 t1 d2 hw2 hns2
      (Ne.symm h12) h1,
    get_context_data_set_same (set_context st p t1 d1) p t2 d2 hw2 hns2 h2⟩

/-- C1 witness: the overwrite theorem applied at a concrete pair of context
types and payloads. -/
theorem claim1_witness :
    get_context_data
        (set_context (set_context st0 "p1" "deadline_edit_task"
            (jObj [("task_id", Json.str "SB-2")]))
          "p1" "task_list_context" (jObj [("page", Json.num 1)])).contexts
        "p1" (some "deadline_edit_task") = .ok none ∧
    get_context_data
        (set_context (set_context st0 "p1" "deadline_edit_task"
            (jObj [("task_id", Json.str "SB-2")]))
          "p1" "task_list_context" (jObj [("page", Json.num 1)])).contexts
        "p1" (some "task_list_context") = .ok (some (jObj [("page", Json.num 1)])) :=
  claim1_single_record_per_phone st0 "p1" "deadline_edit_task" "task_list_context"
    (jObj [("task_id", Json.str "SB-2")]) (jObj [("page", Json.num 1)])
    (by decide) (by intro s h; simp [jObj] at h) (by decide) (by decide) (by decide)

/-- C7: session-store round trip — for every phone number, non-empty context
type and JSON-serializable dict-or-list payload, `get_context_data`
immediately after `set_context` returns exactly the payload written. -/
theorem claim7_roundtrip (st : St) (p t : String) (d : Json)
    (hw : wfJ d = true) (hao : isA d = true ∨ isO d = true) (ht : t ≠ "") :
    get_context_data (set_context st p t d).contexts p (some t) = .ok (some d) := by
  have hns : ∀ s, d ≠ .str s := by
    intro s h
    subst h
    rcases hao with h | h <;> simp [isA, isO] at h
  exact get_context_data_set_same st p t d hw hns ht

/-- C7 witness: the round trip at a concrete nested payload. -/
theorem claim7_witness :
    get_context_data
        (set_context st0 "u1" "pending_tasks"
          (jArr [Json.num 3, Json.str "a", jObj [("k", Json.null)]])).contexts
        "u1" (some "pending_tasks")
      = .ok (some (jArr [Json.num 3, Json.str "a", jObj [("k", Json.null)]])) :=
  claim7_roundtrip st0 "u1" "pending_tasks"
    (jArr [Json.num 3, Json.str "a", jObj [("k", Json.null)]])
    (by decide) (Or.inl (by decide)) (by decide)

/-- C3 (corrected): when the head of the ambiguous-assignee queue has zero
candidate matches, `handle_ambiguous_users` sends the "was not created"
notice and returns immediately — the already-confirmed tasks and the
remaining queue items are NOT resolved further and never reach the
confirmation flow; the whole batch state is discarded (only the notice is
appended to the outbox, no context is written). -/
theorem claim3_zero_match_drops_batch (st : St) (ti : AmbTask) (p wa : String)
    (confirmed : List PTask) (remaining : List AmbTask) (h : ti.umatches = []) :
    handle_ambiguous_users st ti p wa confirmed remaining =
      .ok (send_reply st p
        ("❌ User \x27" ++ ti.search_term ++ "\x27 not found.\n\nTask \x27" ++
          ti.task_name ++ "\x27 was not created.\nPlease check the username and try again.")
        wa) := by
  rw [handle_ambiguous_users]
  rw [h]
  rfl

/-- C3 counterexample: a concrete zero-match head with one already-confirmed
task and one still-ambiguous item behind it — the call returns after the
notice alone, so the confirmed task and the remaining item are dropped
instead of proceeding to resolution and confirmation. -/
theorem claim3_cex :
    handle_ambiguous_users st0
        ⟨"Fix login bug", .d 100, "bob", []⟩ "p2" "wa"
        [⟨"Update dashboard", .d 101, "alice", some "Alice A"⟩]
        [⟨"Review PR", .d 102, "carl",
          [⟨"c1", some "Carl One", none⟩, ⟨"c2", some "Carl Two", none⟩]⟩] =
      .ok { st0 with outbox := [txtMsg "p2"
        "❌ User \x27bob\x27 not found.\n\nTask \x27Fix login bug\x27 was not created.\nPlease check the username and try again."] } := by
  rw [handle_ambiguous_users]
  rfl

/-- C3 witness: the drop theorem applied at the counterexample's inputs. -/
theorem claim3_witness :
    handle_ambiguous_users st0
        ⟨"Fix login bug", .d 100, "bob", []⟩ "p3" "wa"
        [⟨"Update dashboard", .d 101, "alice", some "Alice A"⟩]
        [⟨"Review PR", .d 102, "carl",
          [⟨"c1", some "Carl One", none⟩, ⟨"c2", some "Carl Two", none⟩]⟩] =
      .ok (send_reply st0 "p3"
        ("❌ User \x27bob\x27 not found.\n\nTask \x27Fix login bug\x27 was not created.\nPlease check the username and try again.")
        "wa") :=
  claim3_zero_match_drops_batch st0 ⟨"Fix login bug", .d 100, "bob", []⟩ "p3" "wa"
    [⟨"Update dashboard", .d 101, "alice", some "Alice A"⟩]
    [⟨"Review PR", .d 102, "carl",
      [⟨"c1", some "Carl One", none⟩, ⟨"c2", some "Carl Two", none⟩]⟩]
    rfl

/-- C5: the `overdue` keyword from a linked user does NOT produce an overdue
report — `send_overdue_review_flow` is imported but defined nowhere, so
`send_overdue_tasks` always lands in its `except` branch and the user gets
the generic "An error occurred" reply plus an operator log entry. -/
theorem claim5_overdue_is_broken (env : Env) (st : St) (p wa : String) (u : User)
    (hu : get_user_by_phone env p = some u) :
    handle_status_filter_trigger env st "overdue" p wa =
      .ok (true,
        send_reply
          (log_error st
            ("Error starting overdue review: ImportError: cannot import name \x27send_overdue_review_flow\x27 from task_handlers")
            "Task Alert Error")
          p "❌ An error occurred. Please try again." wa) := by
  simp only [handle_status_filter_trigger, hu]
  rfl

/-- C5 witness: the broken-overdue theorem at a concrete linked user. -/
theorem claim5_witness :
    handle_status_filter_trigger
        ⟨100, [⟨"alice", some "Alice A", some "a@x.com", some "1234567890", true, "System User"⟩],
          fun _ => none, fun _ => false, fun _ => ""⟩
        st0 "overdue" "1234567890" "wa" =
      .ok (true,
        send_reply
          (log_error st0
            ("Error starting overdue review: ImportError: cannot import name \x27send_overdue_review_flow\x27 from task_handlers")
            "Task Alert Error")
          "1234567890" "❌ An error occurred. Please try again." "wa") :=
  claim5_overdue_is_broken
    ⟨100, [⟨"alice", some "Alice A", some "a@x.com", some "1234567890", true, "System User"⟩],
      fun _ => none, fun _ => false, fun _ => ""⟩
    st0 "1234567890" "wa"
    ⟨"alice", some "Alice A", some "a@x.com", some "1234567890", true, "System User"⟩
    (by decide)

/-- A concrete persisted task used by selection witnesses. -/
def taskA : SprintTask :=
  ⟨"SB-7", "Write the report", "Not Started", some "alice", some 105, "alice", 90, none⟩

/-- A state holding `taskA` and a previously stored task-list context. -/
def stT : St :=
  set_context ⟨fun _ => none, [taskA], [], []⟩ "p4" "task_list_context"
    (jObj [("tasks", jArr [encodeRow ⟨"SB-7", "Write the report", "Due in 5 days",
      "Not Started"⟩]), ("page", Json.num 0)])

/-- C10: selecting an existing task stores a `deadline_edit_task` context
holding the selected task id, and because the store keeps one record per
phone number this write replaces whatever context the user had before — the
stored context type after any successful selection is `deadline_edit_task`. -/
theorem claim10_selection_overwrites_context (st : St) (task_id p wa : String)
    (t : SprintTask) (hfind : st.tasks.find? (fun u => u.name = task_id) = some t) :
    (handle_task_selection st task_id p wa).contexts p =
      some ⟨"deadline_edit_task", dumps (jObj [("task_id", .str task_id)])⟩ := by
  rw [handle_task_selection]
  rw [hfind]
  simp [send_interactive_message, set_context, serializeCtxData, jObj]

/-- C10 witness: the selection-context theorem at a state that previously
held a `task_list_context` for the same phone number. -/
theorem claim10_witness :
    (handle_task_selection stT "SB-7" "p4" "wa").contexts "p4" =
      some ⟨"deadline_edit_task", dumps (jObj [("task_id", .str "SB-7")])⟩ :=
  claim10_selection_overwrites_context stT "SB-7" "p4" "wa" taskA (by decide)

theorem getLast?_cons_or (x : α) (xs : List α) :
    (x :: xs).getLast? = xs.getLast?.or (some x) := by
  cases xs with
  | nil => rfl
  | cons y ys =>
    rw [List.getLast?_cons_cons]
    have hs : ((y :: ys).getLast?).isSome = true :=
      List.getLast?_isSome.mpr (by simp)
    cases h : (y :: ys).getLast? with
    | none => rw [h] at hs; simp at hs
    | some z => rfl

theorem some_or_eq (a : α) (o : Option α) : (Option.some a).or o = some a := rfl

theorem or_none_eq (o : Option α) : o.or none = o := by cases o <;> rfl

/-- The `for part in parts[1:]` loop of `parse_task_line`: the last non-`@`
part wins as the deadline text, the last `@`-part (sans `@`) as the assignee
search term. -/
theorem parseFold_spec (l : List String) (acc : ParsedLine) :
    l.foldl (fun acc part =>
        if pyStartsWith part "@" then { acc with assignee_str := some (pyDrop 1 part) }
        else { acc with deadline_str := some part }) acc =
      { task_name := acc.task_name,
        deadline_str :=
          ((l.filter (fun q => !(pyStartsWith q "@"))).getLast?).or acc.deadline_str,
        assignee_str :=
          (((l.filter (fun q => pyStartsWith q "@")).map (pyDrop 1)).getLast?).or
            acc.assignee_str } := by
  induction l generalizing acc with
  | nil => simp
  | cons q l ih =>
    rw [List.foldl_cons, ih]
    by_cases hq : pyStartsWith q "@"
    · simp [hq, List.filter_cons, getLast?_cons_or, Option.or_assoc, some_or_eq]
    · simp [hq, List.filter_cons, getLast?_cons_or, Option.or_assoc, some_or_eq]

/-- C8: quick-create line parsing — the featured line parses to its three
components and its deadline is handed to `parse_date("Feb 10")`; in general
the trimmed first `|`-segment is the task name and the last deadline/assignee
token wins; a line with neither token defaults to deadline = today and
assignee = the sender's resolved user. -/
theorem claim8_quick_create_parsing (env : Env) (cu u : User) (line nm : String) :
    parse_task_line "Review PR | Feb 10 | @john" =
      ⟨"Review PR", some "Feb 10", some "john"⟩ ∧
    (fuzzy_search_user env "john" = [u] →
      processLines env cu ["Review PR | Feb 10 | @john"] =
        ([⟨"Review PR", .d (parse_date env (some "Feb 10")), u.name,
           pyOrS u.full_name u.email⟩], [])) ∧
    (parse_task_line line).task_name = (((pySplit '|' line).map pyStrip).headD "") ∧
    (parse_task_line line).deadline_str =
      (((pySplit '|' line).map pyStrip).tail.filter
        (fun q => !(pyStartsWith q "@"))).getLast? ∧
    (parse_task_line line).assignee_str =
      ((((pySplit '|' line).map pyStrip).tail.filter
        (fun q => pyStartsWith q "@")).map (pyDrop 1)).getLast? ∧
    (parse_task_line line = ⟨nm, none, none⟩ → nm ≠ "" →
      processLines env cu [line] =
        ([⟨nm, .d env.today, cu.name, pyOrS cu.full_name cu.email⟩], [])) := by
  have h1 : parse_task_line "Review PR | Feb 10 | @john" =
      ⟨"Review PR", some "Feb 10", some "john"⟩ := by decide
  have hspec := parseFold_spec (((pySplit '|' line).map pyStrip).tail)
    ⟨((pySplit '|' line).map pyStrip).headD "", none, none⟩
  have hline : parse_task_line line =
      { task_name := ((pySplit '|' line).map pyStrip).headD "",
        deadline_str :=
          (((pySplit '|' line).map pyStrip).tail.filter
            (fun q => !(pyStartsWith q "@"))).getLast?,
        assignee_str :=
          ((((pySplit '|' line).map pyStrip).tail.filter
            (fun q => pyStartsWith q "@")).map (pyDrop 1)).getLast? } := by
    rw [parse_task_line]
    rw [hspec]
    simp [or_none_eq]
  refine ⟨h1, ?_, by rw [hline], by rw [hline], by rw [hline], ?_⟩
  · intro hfz
    rw [processLines]
    rw [processLines]
    rw [h1]
    simp only [strTruthy]
    rw [show (some "john").getD "" = "john" from rfl]
    rw [hfz]
    simp
  · intro hp hnm
    rw [processLines]
    rw [processLines]
    rw [hp]
    simp [hnm, strTruthy, parse_date]

/-- C8 witness: the parsing theorem at a concrete environment in which
`john` resolves to exactly one enabled user, and a token-free line. -/
theorem claim8_witness :
    parse_task_line "Review PR | Feb 10 | @john" =
      ⟨"Review PR", some "Feb 10", some "john"⟩ ∧
    processLines
        ⟨100, [⟨"john", some "John", some "john", none, true, "System User"⟩],
          fun _ => none, fun _ => false, fun _ => ""⟩
        ⟨"alice", some "Alice", some "a@x.com", none, true, "System User"⟩
        ["Review PR | Feb 10 | @john"] =
      ([⟨"Review PR",
         .d (parse_date
            ⟨100, [⟨"john", some "John", some "john", none, true, "System User"⟩],
              fun _ => none, fun _ => false, fun _ => ""⟩ (some "Feb 10")),
         "john", some "John"⟩], []) ∧
    processLines
        ⟨100, [⟨"john", some "John", some "john", none, true, "System User"⟩],
          fun _ => none, fun _ => false, fun _ => ""⟩
        ⟨"alice", some "Alice", some "a@x.com", none, true, "System User"⟩
        ["Fix bug"] =
      ([⟨"Fix bug", .d 100, "alice", some "Alice"⟩], []) := by
  obtain ⟨h1, h2, _, _, _, h6⟩ := claim8_quick_create_parsing
    ⟨100, [⟨"john", some "John", some "john", none, true, "System User"⟩],
      fun _ => none, fun _ => false, fun _ => ""⟩
    ⟨"alice", some "Alice", some "a@x.com", none, true, "System User"⟩
    ⟨"john", some "John", some "john", none, true, "System User"⟩
    "Fix bug" "Fix bug"
  exact ⟨h1, h2 (by decide), h6 (by decide) (by decide)⟩

@[simp] theorem send_reply_tasks (st : St) (a b c : String) :
    (send_reply st a b c).tasks = st.tasks := rfl

@[simp] theorem send_reply_contexts (st : St) (a b c : String) :
    (send_reply st a b c).contexts = st.contexts := rfl

@[simp] theorem send_interactive_tasks (st : St) (a b : String) (bs : List Button)
    (c : String) : (send_interactive_message st a b bs c).tasks = st.tasks := rfl

@[simp] theorem send_interactive_contexts (st : St) (a b : String) (bs : List Button)
    (c : String) : (send_interactive_message st a b bs c).contexts = st.contexts := rfl

@[simp] theorem log_error_tasks (st : St) (a b : String) :
    (log_error st a b).tasks = st.tasks := rfl

@[simp] theorem log_error_contexts (st : St) (a b : String) :
    (log_error st a b).contexts = st.contexts := rfl

@[simp] theorem set_context_tasks (st : St) (p t : String) (d : Json) :
    (set_context st p t d).tasks = st.tasks := rfl

@[simp] theorem clear_context_tasks (st : St) (p : String) :
    (clear_context st p).tasks = st.tasks := rfl

@[simp] theorem send_typing_tasks (st : St) (a b : String) :
    (send_typing_indicator st a b).tasks = st.tasks := rfl

@[simp] theorem send_typing_contexts (st : St) (a b : String) :
    (send_typing_indicator st a b).contexts = st.contexts := rfl

/-- Shape of a successful `_send_paginated_task_list` run: tasks and logs are
untouched and the only context write is the refreshed `task_list_context`. -/
theorem send_paginated_ok_shape {st : St} {to_number : String}
    {rows : List CompactRow} {wa hdr : String} {sc : Json} {ex : Option String}
    {pg : Nat} {st' : St}
    (h : send_paginated_task_list st to_number rows wa hdr sc ex pg = .ok st') :
    st'.tasks = st.tasks ∧ st'.logs = st.logs ∧
      ∃ d, st'.contexts =
        fun q => if q = to_number then some ⟨"task_list_context", d⟩ else st.contexts q := by
  rw [send_paginated_task_list] at h
  simp only [send_typing_indicator, Bind.bind, Except.bind] at h
  cases hg : get_context_data st.contexts to_number (some "task_list_context") with
  | error e => rw [hg] at h; cases h
  | ok v =>
    rw [hg] at h
    simp only [pure, Except.pure, Except.ok.injEq] at h
    subst h
    exact ⟨rfl, rfl, _, rfl⟩

/-- Shape of a successful `send_task_list_with_numbers` run. -/
theorem send_task_list_ok_shape {st : St} {to_number : String} {rows : List TaskRow}
    {wa hdr : String} {sc : Option Json} {ex : Option String} {st' : St}
    (h : send_task_list_with_numbers st to_number rows wa hdr sc ex = .ok st') :
    st'.tasks = st.tasks ∧ st'.logs = st.logs ∧
      (st'.contexts = st.contexts ∨
        ∃ d, st'.contexts =
          fun q => if q = to_number then some ⟨"task_list_context", d⟩ else st.contexts q) := by
  rw [send_task_list_with_numbers] at h
  by_cases h1 : rows.isEmpty
  · simp only [h1, if_pos, Except.ok.injEq] at h
    subst h
    exact ⟨rfl, rfl, Or.inl rfl⟩
  · simp only [h1, if_neg, Bool.false_eq_true, if_false] at h
    obtain ⟨ht, hl, d, hc⟩ := send_paginated_ok_shape h
    refine ⟨ht, hl, Or.inr ⟨d, ?_⟩⟩
    rw [hc]
    funext q
    by_cases hq : q = to_number <;> simp [hq, set_context]

theorem runLogged_tasks (st : St) (title pre : String) (e : Except PyEx St)
    (h : ∀ s, e = .ok s → s.tasks = st.tasks) :
    (runLogged st title pre e).tasks = st.tasks := by
  cases e with
  | ok s => exact h s rfl
  | error m => rfl

theorem runCaught_tasks (st : St) (a b c d m : String) (e : Except PyEx St)
    (h : ∀ s, e = .ok s → s.tasks = st.tasks) :
    (runCaught st a b c d m e).tasks = st.tasks := by
  cases e with
  | ok s => exact h s rfl
  | error x => rfl

/-- `send_remaining_tasks` never changes the persisted tasks. -/
theorem send_remaining_tasks_tasks (env : Env) (st : St) (to_number : String)
    (assigned_to : Option String) (wa : String) :
    (send_remaining_tasks env st to_number assigned_to wa).tasks = st.tasks := by
  rw [send_remaining_tasks]
  apply runLogged_tasks
  intro s hs
  by_cases h1 : (st.tasks.filter
      (fun t => t.status ≠ "Completed" ∧ t.assigned_to = assigned_to)).isEmpty
  · simp only [h1, if_pos, Except.ok.injEq] at hs
    subst hs
    simp
  · simp only [h1, Bool.false_eq_true, if_false] at hs
    rcases htal : tallyTasks env (st.tasks.filter
      (fun t => t.status ≠ "Completed" ∧ t.assigned_to = assigned_to)) with ⟨tl, sc⟩
    rw [htal] at hs
    by_cases h2 : tl.isEmpty
    · simp only [h2, if_pos, Except.ok.injEq] at hs
      subst hs
      simp
    · simp only [h2, Bool.false_eq_true, if_false] at hs
      exact (send_task_list_ok_shape hs).1

/-- `send_my_tasks` never changes the persisted tasks. -/
theorem send_my_tasks_tasks (env : Env) (st : St) (to_number a wa : String) :
    (send_my_tasks env st to_number a wa).tasks = st.tasks := by
  rw [send_my_tasks]
  apply runCaught_tasks
  intro s hs
  by_cases h1 : (st.tasks.filter
      (fun t => t.status ≠ "Completed" ∧ t.assigned_to = some a)).isEmpty
  · simp only [h1, if_pos, Except.ok.injEq] at hs
    subst hs
    simp
  · simp only [h1, Bool.false_eq_true, if_false] at hs
    rcases htal : tallyTasks env (st.tasks.filter
      (fun t => t.status ≠ "Completed" ∧ t.assigned_to = some a)) with ⟨tl, sc⟩
    rw [htal] at hs
    by_cases h2 : tl.isEmpty
    · simp only [h2, if_pos, Except.ok.injEq] at hs
      subst hs
      simp
    · simp only [h2, Bool.false_eq_true, if_false] at hs
      exact (send_task_list_ok_shape hs).1

theorem setTaskField_comp (tasks : List SprintTask) (id : String)
    (f g : SprintTask → SprintTask) (hf : ∀ t, (f t).name = t.name) :
    setTaskField (setTaskField tasks id f) id g =
      tasks.map (fun t => if t.name = id then g (f t) else t) := by
  induction tasks with
  | nil => rfl
  | cons t ts ih =>
    simp only [setTaskField, List.map_cons] at ih ⊢
    by_cases h : t.name = id
    · simp [h, hf t, ih]
    · simp [h, ih]

/-- C9: a status update on an existing task rewrites exactly that task: its
status becomes the new value, `completed_date` is stamped with today iff the
new status is Completed (otherwise kept as-is), every other field of the
task and every other task are untouched. -/
theorem claim9_completed_stamp (env : Env) (st : St)
    (task_id new_status p wa : String) (t : SprintTask)
    (hfind : st.tasks.find? (fun u => u.name = task_id) = some t) :
    (handle_status_update env st task_id new_status p wa).tasks =
      st.tasks.map (fun u =>
        if u.name = task_id then
          { u with
            status := new_status
            completed_date :=
              if new_status = "Completed" then some env.today else u.completed_date }
        else u) := by
  by_cases hc : new_status = "Completed"
  · subst hc
    simp only [handle_status_update, hfind]
    rw [send_remaining_tasks_tasks]
    exact setTaskField_comp st.tasks task_id
      (fun u => { u with status := "Completed" })
      (fun u => { u with completed_date := some env.today })
      (fun u => rfl)
  · simp only [handle_status_update, hfind]
    rw [send_remaining_tasks_tasks]
    rw [if_neg hc]
    simp [hc, setTaskField]

/-- C9 witness: completing `taskA` stamps today and leaves the other fields
alone. -/
theorem claim9_witness :
    (handle_status_update env0 stT "SB-7" "Completed" "p4" "wa").tasks =
      stT.tasks.map (fun u =>
        if u.name = "SB-7" then
          { u with
            status := "Completed"
            completed_date :=
              if "Completed" = "Completed" then some env0.today else u.completed_date }
        else u) :=
  claim9_completed_stamp env0 stT "SB-7" "Completed" "p4" "wa" taskA (by decide)

/-- The consolidated `task_list_context` payload the list renderer stores. -/
def listCtx (rows : List CompactRow) (pgI : Int) (sc : Json) (ex : Option String)
    (hdr : String) : Json :=
  jObj [("tasks", jArr (rows.map encodeRow)), ("page", .num pgI),
        ("status_counts", sc), ("exclude_status", optStrJ ex), ("header", .str hdr)]

theorem wfJ_encodeRow (r : CompactRow) : wfJ (encodeRow r) = true := by
  apply wfJ_jObj
  intro kv hkv
  simp only [encodeRow, List.mem_cons, List.not_mem_nil, or_false] at hkv
  rcases hkv with h | h | h | h <;> (subst h; rfl)

theorem wfJ_listCtx (rows : List CompactRow) (pgI : Int) (sc : Json)
    (ex : Option String) (hdr : String) (hsc : wfJ sc = true) :
    wfJ (listCtx rows pgI sc ex hdr) = true := by
  apply wfJ_jObj
  intro kv hkv
  simp only [listCtx, List.mem_cons, List.not_mem_nil, or_false] at hkv
  rcases hkv with h | h | h | h | h
  · subst h
    exact wfJ_jArr (by
      intro x hx
      simp only [List.mem_map] at hx
      obtain ⟨r, _, rfl⟩ := hx
      exact wfJ_encodeRow r)
  · subst h; rfl
  · subst h; exact hsc
  · subst h; exact wfJ_optStrJ ex
  · subst h; rfl

theorem slice_map_snd (rows : List α) (k m : Nat) (f : α → β) :
    ((rows.enum.drop k).take m).map (fun q => f q.2) = ((rows.drop k).take m).map f := by
  conv_rhs => rw [← List.enum_map_snd rows]
  rw [← List.map_drop, ← List.map_take, List.map_map]
  rfl

/-- Button layout of a paginated page that still has tasks after it: the nine
tasks of the page slice as `SELECT_TASK:` buttons plus the Load-More control. -/
theorem send_paginated_buttons (st : St) (p : String) (rows : List CompactRow)
    (wa hdr : String) (sc : Json) (ex : Option String) (pg : Nat) (v : Option Json)
    (hg : get_context_data st.contexts p (some "task_list_context") = .ok v)
    (hmore : pg * 9 + 9 < rows.length) :
    ∃ st', send_paginated_task_list st p rows wa hdr sc ex pg = .ok st' ∧
      (st'.outbox.getLast?).map (fun m => m.buttons.map (fun b => b.id)) =
        some (((rows.drop (pg * 9)).take 9).map (fun r => "SELECT_TASK:" ++ r.task_id) ++
          ["LOAD_MORE_TASKS"]) := by
  rw [send_paginated_task_list]
  simp only [send_typing_contexts, send_typing_indicator, Bind.bind, Except.bind, hg,
    pure, Except.pure]
  refine ⟨_, rfl, ?_⟩
  rw [show (send_interactive_message (set_context st p "task_list_context" _) p _ _ wa).outbox
    = st.outbox ++ [⟨p, _, true, _⟩] from rfl]
  rw [List.getLast?_concat]
  simp only [Option.map_some']
  congr 1
  have hmin : min (pg * TASKS_PER_PAGE + TASKS_PER_PAGE) rows.length
      = pg * 9 + 9 := by
    simp only [TASKS_PER_PAGE]
    omega
  rw [hmin]
  have hdec : decide (pg * 9 + 9 < rows.length) = true := by
    simp [hmore]
  rw [hdec]
  simp only [if_pos]
  rw [List.map_append]
  have h9 : pg * 9 + 9 - pg * TASKS_PER_PAGE = 9 := by
    simp only [TASKS_PER_PAGE]
    omega
  rw [show pg * TASKS_PER_PAGE = pg * 9 from rfl] at h9 ⊢
  rw [h9]
  rw [List.map_map]
  rw [show ((fun b => b.id) ∘ fun q =>
      Button.mk ("SELECT_TASK:" ++ (q : Nat × CompactRow).2.task_id)
        (pyTake 20 q.2.task_title)
        (some (natStr (q.1 + 1) ++ ". " ++ pyTake 68 q.2.days_text))) =
    (fun q => "SELECT_TASK:" ++ (q : Nat × CompactRow).2.task_id) from rfl]
  rw [slice_map_snd rows (pg * 9) 9 (fun r => "SELECT_TASK:" ++ r.task_id)]
  rfl

theorem jOptStr_optStrJ (o : Option String) : jOptStr (optStrJ o) = o := by
  cases o <;> rfl

/-- A digit message of value `n ≥ 1` against a stored task-list context:
in range it selects the task at 1-based ordinal `n` from the full stored
list, out of range it produces the bounded error message. -/
theorem handle_number_selection_digits (st : St) (p wa message : String)
    (rows : List CompactRow) (pgI : Int) (sc : Json) (ex : Option String) (hdr : String)
    (n : Nat)
    (hctx : st.contexts p = some ⟨"task_list_context", dumps (listCtx rows pgI sc ex hdr)⟩)
    (hsc : wfJ sc = true) (hne : rows ≠ [])
    (hmsg : pyIsDigit (pyStrip message) = true)
    (hval : strToNat (pyStrip message) = n) (h1 : 1 ≤ n) :
    handle_number_selection st message p wa =
      if hn : n - 1 < rows.length then
        .ok (true, handle_task_selection st (rows.get ⟨n - 1, hn⟩).task_id p wa)
      else
        .ok (true, send_reply st p
          ("❌ Invalid number. Please enter a number between 1 and " ++
            natStr rows.length ++ ".") wa) := by
  have hwf := wfJ_listCtx rows pgI sc ex hdr hsc
  have hg : get_context_data st.contexts p (some "task_list_context")
      = .ok (some (listCtx rows pgI sc ex hdr)) :=
    get_context_data_of_eq hctx (loads_dumps _ hwf)
  have htar : jTruthy (jArr (rows.map encodeRow)) = true := by
    cases rows with
    | nil => exact absurd rfl hne
    | cons a l => rfl
  rw [handle_number_selection]
  rw [if_neg (show ¬ ¬ (pyIsDigit (pyStrip message) = true) by simp [hmsg])]
  rw [hval]
  rw [if_neg (by omega : ¬ n < 1)]
  simp only [Bind.bind, Except.bind, hg]
  rw [if_neg (show ¬ ¬ (jTruthy (listCtx rows pgI sc ex hdr) = true ∧
      jTruthy (jGetD (listCtx rows pgI sc ex hdr) "tasks" Json.null) = true) by
    rw [show jGetD (listCtx rows pgI sc ex hdr) "tasks" Json.null
      = jArr (rows.map encodeRow) from rfl]
    simp [htar, show jTruthy (listCtx rows pgI sc ex hdr) = true from rfl])]
  simp only [show jGetE (listCtx rows pgI sc ex hdr) "tasks"
    = Except.ok (jArr (rows.map encodeRow)) from rfl, Bind.bind, Except.bind]
  rw [dif_pos (isA_jArr (rows.map encodeRow))]
  simp only [jItems_jArr, List.length_map]
  by_cases hn : n - 1 < rows.length
  · rw [dif_pos hn, dif_pos hn]
    rw [List.get_of_eq (jItems_jArr (rows.map encodeRow))]
    rw [List.get_map]
    rfl
  · rw [dif_neg hn, dif_neg hn]
    rfl

/-- C6 (corrected): pagination and ordinal selection on a stored 23-task
list — page 0 shows tasks 1–9 as buttons plus Load-More; `more` advances to
page 1 showing tasks 10–18; a digit reply of value `n ≥ 1` selects ordinal
`n` from the full stored list at any page, numbers above the list length get
the bounded error message (state untouched apart from the reply), but a
digit reply of value `0` is declined silently (not handled, no error
message) rather than producing the bounded message. -/
theorem claim6_pagination_and_selection (st : St) (p wa hdr : String)
    (rows : List CompactRow) (pgI : Int) (sc : Json) (ex : Option String)
    (hctx : st.contexts p = some ⟨"task_list_context", dumps (listCtx rows pgI sc ex hdr)⟩)
    (hsc : wfJ sc = true) (hlen : rows.length = 23) :
    (∃ st', send_paginated_task_list st p rows wa hdr sc ex 0 = .ok st' ∧
      (st'.outbox.getLast?).map (fun m => m.buttons.map (fun b => b.id)) =
        some ((rows.take 9).map (fun r => "SELECT_TASK:" ++ r.task_id) ++
          ["LOAD_MORE_TASKS"])) ∧
    (pgI = 0 → ∃ st', handle_more_command st "more" p wa = .ok (true, st') ∧
      (st'.outbox.getLast?).map (fun m => m.buttons.map (fun b => b.id)) =
        some (((rows.drop 9).take 9).map (fun r => "SELECT_TASK:" ++ r.task_id) ++
          ["LOAD_MORE_TASKS"])) ∧
    (∀ message n, pyIsDigit (pyStrip message) = true → strToNat (pyStrip message) = n →
      1 ≤ n → ∀ hn : n - 1 < rows.length,
      handle_number_selection st message p wa =
        .ok (true, handle_task_selection st (rows.get ⟨n - 1, hn⟩).task_id p wa)) ∧
    (∀ message n, pyIsDigit (pyStrip message) = true → strToNat (pyStrip message) = n →
      rows.length < n →
      handle_number_selection st message p wa =
        .ok (true, send_reply st p
          ("❌ Invalid number. Please enter a number between 1 and " ++
            natStr rows.length ++ ".") wa)) ∧
    (∀ message, pyIsDigit (pyStrip message) = true → strToNat (pyStrip message) = 0 →
      handle_number_selection st message p wa = .ok (false, st)) := by
  have hwf := wfJ_listCtx rows pgI sc ex hdr hsc
  have hg : get_context_data st.contexts p (some "task_list_context")
      = .ok (some (listCtx rows pgI sc ex hdr)) :=
    get_context_data_of_eq hctx (loads_dumps _ hwf)
  have hne : rows ≠ [] := by
    intro h
    rw [h] at hlen
    simp at hlen
  have htar : jTruthy (jArr (rows.map encodeRow)) = true := by
    cases rows with
    | nil => exact absurd rfl hne
    | cons a l => rfl
  refine ⟨?_, ?_, ?_, ?_, ?_⟩
  · -- page 0 render
    obtain ⟨st', hok, hbtn⟩ := send_paginated_buttons st p rows wa hdr sc ex 0 _ hg
      (by omega)
    refine ⟨st', hok, ?_⟩
    rw [hbtn]
    simp
  · -- the `more` keyword advances one page
    intro hpg
    subst hpg
    have hln : loadNextPage st p wa (listCtx rows 0 sc ex hdr) =
        send_paginated_task_list st p rows wa hdr sc ex 1 := by
      rw [loadNextPage]
      rw [show jGetD (listCtx rows 0 sc ex hdr) "tasks" Json.null
        = jArr (rows.map encodeRow) from rfl]
      rw [decodeRows_encode]
      simp only [Bind.bind, Except.bind]
      rw [show jOptStr (jGetD (listCtx rows 0 sc ex hdr) "exclude_status" Json.null)
        = jOptStr (optStrJ ex) from rfl]
      rw [jOptStr_optStrJ]
      rfl
    obtain ⟨st', hok, hbtn⟩ := send_paginated_buttons st p rows wa hdr sc ex 1 _ hg
      (by omega)
    refine ⟨st', ?_, ?_⟩
    · rw [handle_more_command]
      rw [if_neg (by decide : ¬ (pyLower (pyStrip "more") ≠ "more"))]
      simp only [Bind.bind, Except.bind, hg]
      rw [if_neg (show ¬ ¬ (jTruthy (listCtx rows 0 sc ex hdr) = true ∧
          jTruthy (jGetD (listCtx rows 0 sc ex hdr) "tasks" Json.null) = true) by
        rw [show jGetD (listCtx rows 0 sc ex hdr) "tasks" Json.null
          = jArr (rows.map encodeRow) from rfl]
        simp [htar, show jTruthy (listCtx rows 0 sc ex hdr) = true from rfl])]
      rw [hln, hok]
      rfl
    · rw [hbtn]
  · -- in-range ordinal selection from the full stored list
    intro message n hmsg hval h1 hn
    rw [handle_number_selection_digits st p wa message rows pgI sc ex hdr n hctx hsc hne
      hmsg hval h1]
    rw [dif_pos hn]
  · -- out-of-range number: bounded error reply
    intro message n hmsg hval hover
    rw [handle_number_selection_digits st p wa message rows pgI sc ex hdr n hctx hsc hne
      hmsg hval (by omega)]
    rw [dif_neg (by omega : ¬ n - 1 < rows.length)]
  · -- zero: silently not handled
    intro message hmsg hval0
    rw [handle_number_selection]
    rw [if_neg (show ¬ ¬ (pyIsDigit (pyStrip message) = true) by simp [hmsg])]
    rw [hval0]
    rw [if_pos (by decide : (0:Nat) < 1)]

/-- A stored two-task list used by the silent-zero counterexample. -/
def rowsC : List CompactRow :=
  [⟨"SB-1", "Fix login bug", "Due today", "Not Started"⟩,
   ⟨"SB-2", "Update dashboard", "Due tomorrow", "In Progress"⟩]

def stC : St := set_context st0 "p6" "task_list_context"
  (listCtx rowsC 0 defaultCounts none "Your Tasks")

/-- C6 counterexample: with a task list stored, the out-of-range reply `0`
is declined silently — `handle_number_selection` returns not-handled with the
state unchanged, so the user gets no bounded error message, contrary to the
claim that every out-of-range number yields one. -/
theorem claim6_cex : handle_number_selection stC "0" "p6" "wa" = .ok (false, stC) := by
  rfl

/-- A stored 23-task list exercising the pagination arithmetic. -/
def rows23 : List CompactRow :=
  (List.range 23).map (fun i =>
    ⟨"SB-" ++ natStr i, "Task " ++ natStr i, "Due today", "Not Started"⟩)

def stW : St := set_context st0 "p7" "task_list_context"
  (listCtx rows23 0 defaultCounts none "Your Tasks")

/-- C6 witness: on the stored 23-task list, `15` selects ordinal 15 from the
full list, `30` gets the bounded error message, and `0` is silently
declined. -/
theorem claim6_witness :
    handle_number_selection stW "15" "p7" "wa" =
      .ok (true, handle_task_selection stW (rows23.get ⟨14, by decide⟩).task_id
        "p7" "wa") ∧
    handle_number_selection stW "30" "p7" "wa" =
      .ok (true, send_reply stW "p7"
        ("❌ Invalid number. Please enter a number between 1 and " ++
          natStr rows23.length ++ ".") "wa") ∧
    handle_number_selection stW "0" "p7" "wa" = .ok (false, stW) := by
  obtain ⟨hA, hB, hC, hD, hE⟩ := claim6_pagination_and_selection stW "p7" "wa"
    "Your Tasks" rows23 0 defaultCounts none rfl rfl (by rfl)
  exact ⟨hC "15" 15 (by decide) (by decide) (by decide) (by decide),
    hD "30" 30 (by decide) (by decide) (by decide),
    hE "0" (by decide) (by decide)⟩

theorem serializeCtxData_jArr (l : List Json) :
    serializeCtxData (jArr l) = dumps (jArr l) := by
  cases l <;> rfl

theorem wfJ_pendingAssignData (ti : AmbTask) (cs : List PTask) (rs : List AmbTask) :
    wfJ (pendingAssignData ti cs rs) = true := by
  apply wfJ_jObj
  intro kv hkv
  simp only [pendingAssignData, List.mem_cons, List.not_mem_nil, or_false] at hkv
  rcases hkv with h | h | h
  · subst h
    apply wfJ_jObj
    intro kv2 hkv2
    simp only [List.mem_cons, List.not_mem_nil, or_false] at hkv2
    rcases hkv2 with h | h | h | h
    · subst h; rfl
    · subst h; rfl
    · subst h; rfl
    · subst h; exact wfJ_encodeUserRefs ti.umatches
  · subst h; exact wfJ_encodePTs cs
  · subst h
    exact wfJ_jArr (by
      intro x hx
      simp only [List.mem_map] at hx
      obtain ⟨a, _, rfl⟩ := hx
      exact wfJ_encodeAmb a)

theorem decodePT_encodePT (t : PTask) :
    decodePT (encodePT t) =
      .ok ⟨t.task_name, .s t.deadline.pyStr, t.assignee, t.assignee_display⟩ := by
  cases t with
  | mk tn dl asg disp => cases disp <;> rfl

theorem decodePTs_encode (ts : List PTask) :
    decodePTs (ts.map encodePT) =
      .ok (ts.map (fun t => ⟨t.task_name, .s t.deadline.pyStr, t.assignee,
        t.assignee_display⟩)) := by
  induction ts with
  | nil => rfl
  | cons t ts ih => simp [decodePTs, decodePT_encodePT, ih]

theorem confirmListText_ok (env : Env) (ts : List PTask)
    (h : ∀ t ∈ ts, ∃ m, t.deadline.toDayE = Except.ok m) :
    ∀ i, ∃ s, confirmListText env i ts = .ok s := by
  induction ts with
  | nil => intro i; exact ⟨"", rfl⟩
  | cons t ts ih =>
    intro i
    obtain ⟨m, hm⟩ := h t (by simp)
    obtain ⟨s, hs⟩ := ih (fun u hu => h u (by simp [hu])) (i + 1)
    refine ⟨natStr i ++ ". " ++ t.task_name ++ "\n   📅 " ++
      format_date_display env (some m) ++ " | 👤 " ++ pyShowOpt t.assignee_display ++
      "\n\n" ++ s, ?_⟩
    simp only [confirmListText, Bind.bind, Except.bind, hm, hs]

/-- A batch whose deadlines all survive `getdate` makes
`show_task_confirmation` succeed, leaving the batch stored under
`pending_tasks`. -/
theorem show_task_confirmation_ok (env : Env) (st : St) (ts : List PTask)
    (p wa : String) (b : Bool)
    (h : ∀ t ∈ ts, ∃ m, t.deadline.toDayE = Except.ok m) :
    ∃ st', show_task_confirmation env st ts p wa b = .ok st' ∧
      st'.contexts p = some ⟨"pending_tasks", dumps (jArr (ts.map encodePT))⟩ := by
  obtain ⟨s, hs⟩ := confirmListText_ok env ts h 1
  refine ⟨send_interactive_message
      (set_context st p "pending_tasks" (jArr (ts.map encodePT))) p
      ("📝 *Creating " ++ natStr ts.length ++ " task" ++
        (if 1 < ts.length then "s" else "") ++ ":*\n\n" ++ s)
      (if b then
        [Button.mk "CONFIRM_TASKS" "✅ Confirm All" none,
         Button.mk "ADD_ANOTHER_TASK" "➕ Add Another" none,
         Button.mk "CHANGE_DEADLINE" "📅 Change Deadline" none]
       else
        [Button.mk "CONFIRM_TASKS" "✅ Confirm All" none,
         Button.mk "CHANGE_DEADLINE" "📅 Change Deadline" none,
         Button.mk "CANCEL_TASKS" "❌ Cancel" none]) wa, ?_, ?_⟩
  · rw [show_task_confirmation]
    simp only [Bind.bind, Except.bind, hs]
    rfl
  · simp [send_interactive_message, set_context, serializeCtxData_jArr]

/-- C4 (corrected): the featured `ASSIGN_USER:<name>` event with a name that
matches no User record does return normally — `handle_user_selection` falls
back to the raw name as the display name and hands the batch to the
confirmation stage.  The blanket claim that no flow handler lets an
exception escape is false (see the counterexample): a guided-flow assignee
button pressed while the guided task has no name yet raises `KeyError`. -/
theorem claim4_assign_user_returns (env : Env) (st : St) (p wa uname : String)
    (ti : AmbTask) (m : Int) (confirmed : List PTask)
    (hctx : st.contexts p = some ⟨"pending_task_assign",
      dumps (pendingAssignData ti confirmed [])⟩)
    (hti : ti.deadline = DateV.d m)
    (hdl : ∀ t ∈ confirmed, ∃ k, t.deadline = DateV.d k)
    (hu : env.users.find? (fun u => u.name = uname) = none) :
    ∃ st', handle_user_selection env st uname p wa = .ok st' ∧
      ∃ d, st'.contexts p = some ⟨"pending_tasks", d⟩ := by
  have hwf := wfJ_pendingAssignData ti confirmed []
  have hg : get_context_data st.contexts p (some "pending_task_assign")
      = .ok (some (pendingAssignData ti confirmed [])) :=
    get_context_data_of_eq hctx (loads_dumps _ hwf)
  have hdays : ∀ t ∈ (confirmed.map (fun t =>
      (⟨t.task_name, .s t.deadline.pyStr, t.assignee, t.assignee_display⟩ : PTask))) ++
      [(⟨ti.task_name, .s ti.deadline.pyStr, uname, some uname⟩ : PTask)],
      ∃ k, t.deadline.toDayE = Except.ok k := by
    intro t ht
    rcases List.mem_append.mp ht with hmem | hmem
    · simp only [List.mem_map] at hmem
      obtain ⟨t0, ht0, rfl⟩ := hmem
      obtain ⟨k, hk⟩ := hdl t0 ht0
      exact ⟨k, by rw [hk]; exact getdateE_dpyStr k⟩
    · simp only [List.mem_singleton] at hmem
      subst hmem
      exact ⟨m, by rw [hti]; exact getdateE_dpyStr m⟩
  obtain ⟨st', hok, hctx'⟩ := show_task_confirmation_ok env (clear_context st p)
    ((confirmed.map (fun t =>
      (⟨t.task_name, .s t.deadline.pyStr, t.assignee, t.assignee_display⟩ : PTask))) ++
      [(⟨ti.task_name, .s ti.deadline.pyStr, uname, some uname⟩ : PTask)])
    p wa false hdays
  refine ⟨st', ?_, _, hctx'⟩
  rw [handle_user_selection]
  simp only [Bind.bind, Except.bind, hg]
  rw [if_pos (show jTruthy (pendingAssignData ti confirmed []) = true from rfl)]
  simp only [show jGetE (pendingAssignData ti confirmed []) "task_info"
      = Except.ok (jObj
        [("task_name", .str ti.task_name), ("deadline", .str ti.deadline.pyStr),
         ("search_term", .str ti.search_term),
         ("matches", jArr (ti.umatches.map encodeUserRef))]) from rfl,
    show jGetE (pendingAssignData ti confirmed []) "confirmed_tasks"
      = Except.ok (jArr (confirmed.map encodePT)) from rfl,
    show jGetE (pendingAssignData ti confirmed []) "remaining_ambiguous"
      = Except.ok (jArr ([] : List Json)) from rfl]
  rw [if_pos (isA_jArr (confirmed.map encodePT))]
  simp only [jItems_jArr, decodePTs_encode, Bind.bind, Except.bind]
  rw [if_pos (show isA (jArr ([] : List Json)) = true from rfl)]
  simp only [show jItems (jArr ([] : List Json)) = [] from rfl,
    show decodeAmbs [] = Except.ok [] from rfl]
  simp only [hu]
  exact hok

def phoneA : String := "1234567890"

def userA : User := ⟨"alice", some "Alice A", some "a@x.com", some phoneA, true,
  "System User"⟩

def env4 : Env := ⟨100, [userA], fun _ => none, fun _ => false, fun _ => ""⟩

def st4 : St := set_context st0 phoneA "guided_flow" initGuidedCtx

/-- C4 counterexample: a linked user who has just opened the guided add-task
flow (context `{step: name, tasks: [], current: {}}`) presses a stale
`GUIDED_ASSIGN_ME` button; `_finalize_guided_task` evaluates
`current["task_name"]` on the empty `current` dict and the `KeyError`
escapes the handler to the router — no user-visible reply, no log entry. -/
theorem claim4_cex :
    handle_guided_assignee_button env4 st4 "ME" phoneA "wa" =
      .error "KeyError: task_name" := by
  rfl

/-- C4 witness: the `ASSIGN_USER` totality theorem at a concrete pending
assignment whose chosen name matches no user record. -/
theorem claim4_witness :
    ∃ st', handle_user_selection env0
        (set_context st0 "p8" "pending_task_assign"
          (pendingAssignData
            ⟨"Review PR", .d 102, "carl",
              [⟨"c1", some "Carl One", none⟩, ⟨"c2", some "Carl Two", none⟩]⟩
            [⟨"Update dashboard", .d 101, "alice", some "Alice A"⟩] []))
        "dave" "p8" "wa" = .ok st' ∧
      ∃ d, st'.contexts "p8" = some ⟨"pending_tasks", d⟩ :=
  claim4_assign_user_returns env0
    (set_context st0 "p8" "pending_task_assign"
      (pendingAssignData
        ⟨"Review PR", .d 102, "carl",
          [⟨"c1", some "Carl One", none⟩, ⟨"c2", some "Carl Two", none⟩]⟩
        [⟨"Update dashboard", .d 101, "alice", some "Alice A"⟩] []))
    "p8" "wa" "dave"
    ⟨"Review PR", .d 102, "carl",
      [⟨"c1", some "Carl One", none⟩, ⟨"c2", some "Carl Two", none⟩]⟩
    102 [⟨"Update dashboard", .d 101, "alice", some "Alice A"⟩]
    rfl rfl
    (by
      intro t ht
      simp only [List.mem_singleton] at ht
      subst ht
      exact ⟨101, rfl⟩)
    rfl

/-- `created_by = current_user["name"] if current_user else "Administrator"`. -/
def createdByOf (env : Env) (p : String) : String :=
  match get_user_by_phone env p with
  | some u => u.name
  | none => "Administrator"

/-- Effects of the insertion loop: no touch of contexts or outbox; it appends
freshly created `Not Started` documents, one per consumed item, all of them
on a clean run. -/
theorem insertLoop_spec (env : Env) (cb : String) :
    ∀ (items : List Json) (st : St),
      (insertLoop env cb st items).1.contexts = st.contexts ∧
      (insertLoop env cb st items).1.outbox = st.outbox ∧
      ∃ docs, (insertLoop env cb st items).1.tasks = st.tasks ++ docs ∧
        (∀ d ∈ docs, d.status = "Not Started" ∧ d.created_by = cb) ∧
        ((insertLoop env cb st items).2 = none → docs.length = items.length) := by
  intro items
  induction items with
  | nil =>
    intro st
    exact ⟨rfl, rfl, [], by simp [insertLoop], by simp, fun _ => rfl⟩
  | cons j js ih =>
    intro st
    rw [insertLoop]
    split
    · exact ⟨rfl, rfl, [], by simp, by simp, fun hnone => Option.noConfusion hnone⟩
    · rename_i x tn asg day heq
      by_cases hins : env.insertFails tn = true
      · rw [if_pos hins]
        exact ⟨rfl, rfl, [], by simp, by simp, fun hnone => Option.noConfusion hnone⟩
      · rw [if_neg hins]
        obtain ⟨hc, ho, docs, htasks, hstat, hlen⟩ :=
          ih { st with tasks := st.tasks ++
            [{ name := newTaskName st, task_name := tn, status := "Not Started",
               assigned_to := some asg, deadline := some day, created_by := cb,
               created_on := env.today, completed_date := none }] }
        refine ⟨hc, ho,
          ({ name := newTaskName st, task_name := tn, status := "Not Started",
             assigned_to := some asg, deadline := some day, created_by := cb,
             created_on := env.today, completed_date := none } : SprintTask) :: docs,
          htasks.trans (by simp), ?_, ?_⟩
        · intro d hd
          rcases List.mem_cons.mp hd with h | h
          · subst h
            exact ⟨rfl, rfl⟩
          · exact hstat d h
        · intro hnone
          have h2 := hlen hnone
          simp [h2]

theorem send_task_list_contexts_at {st : St} {to_number : String} {rows : List TaskRow}
    {wa hdr : String} {sc : Option Json} {ex : Option String} {st' : St}
    (h : send_task_list_with_numbers st to_number rows wa hdr sc ex = .ok st')
    (q : String) :
    st'.contexts q = st.contexts q ∨
      ∃ d, st'.contexts q = some ⟨"task_list_context", d⟩ := by
  obtain ⟨_, _, hc⟩ := send_task_list_ok_shape h
  rcases hc with hc | ⟨d, hc⟩
  · left
    rw [hc]
  · rw [hc]
    by_cases hq : q = to_number
    · right
      exact ⟨d, by simp [hq]⟩
    · left
      simp [hq]

theorem runCaught_contexts (st : St) (a b c d m : String) (e : Except PyEx St)
    (q : String)
    (h : ∀ s, e = .ok s → (s.contexts q = st.contexts q ∨
      ∃ dd, s.contexts q = some ⟨"task_list_context", dd⟩)) :
    ((runCaught st a b c d m e).contexts q = st.contexts q ∨
      ∃ dd, (runCaught st a b c d m e).contexts q = some ⟨"task_list_context", dd⟩) := by
  cases e with
  | ok s => exact h s rfl
  | error x => left; rfl

/-- `send_my_tasks` either leaves a phone's context record alone or replaces
it with a fresh `task_list_context`. -/
theorem send_my_tasks_contexts (env : Env) (st : St) (to_number a wa q : String) :
    (send_my_tasks env st to_number a wa).contexts q = st.contexts q ∨
      ∃ d, (send_my_tasks env st to_number a wa).contexts q =
        some ⟨"task_list_context", d⟩ := by
  rw [send_my_tasks]
  apply runCaught_contexts
  intro s hs
  by_cases h1 : (st.tasks.filter
      (fun t => t.status ≠ "Completed" ∧ t.assigned_to = some a)).isEmpty
  · simp only [h1, if_pos, Except.ok.injEq] at hs
    subst hs
    left
    rfl
  · simp only [h1, Bool.false_eq_true, if_false] at hs
    rcases htal : tallyTasks env (st.tasks.filter
      (fun t => t.status ≠ "Completed" ∧ t.assigned_to = some a)) with ⟨tl, sc⟩
    rw [htal] at hs
    by_cases h2 : tl.isEmpty
    · simp only [h2, if_pos, Except.ok.injEq] at hs
      subst hs
      left
      rfl
    · simp only [h2, Bool.false_eq_true, if_false] at hs
      exact send_task_list_contexts_at hs q

/-- C2: confirm-failure atomicity — on `CONFIRM_TASKS` over a non-empty
stored batch, if the insertion loop stops with an exception the user gets
the failure reply and the `pending_tasks` context is left exactly as it was
(only tasks inserted before the failure persist); on a clean run exactly one
`Not Started` document is created per pending task, the context is cleared
and the final stored context (if any) is no longer `pending_tasks`. -/
theorem claim2_confirm_atomicity (env : Env) (st : St) (p wa : String) (ts : List PTask)
    (hctx : st.contexts p = some ⟨"pending_tasks", dumps (jArr (ts.map encodePT))⟩)
    (hne : ts ≠ []) :
    (∀ st₁ e, insertLoop env (createdByOf env p) st (ts.map encodePT) = (st₁, some e) →
      handle_task_confirmation env st "CONFIRM_TASKS" p wa =
        .ok (send_reply (log_error st₁ ("Error creating tasks: " ++ e)
          "Task Creation Error") p "❌ Error creating tasks. Please try again." wa) ∧
      st₁.contexts = st.contexts) ∧
    (∀ st₁, insertLoop env (createdByOf env p) st (ts.map encodePT) = (st₁, none) →
      (∃ st', handle_task_confirmation env st "CONFIRM_TASKS" p wa = .ok st' ∧
        st'.tasks = st₁.tasks ∧
        (st'.contexts p).map (fun r => r.context_type) ≠ some "pending_tasks") ∧
      ∃ docs, st₁.tasks = st.tasks ++ docs ∧ docs.length = ts.length ∧
        ∀ d ∈ docs, d.status = "Not Started" ∧ d.created_by = createdByOf env p) := by
  have hwfa : wfJ (jArr (ts.map encodePT)) = true := wfJ_encodePTs ts
  have hg : get_context_data st.contexts p (some "pending_tasks")
      = .ok (some (jArr (ts.map encodePT))) :=
    get_context_data_of_eq hctx (loads_dumps _ hwfa)
  have htruthy : jTruthy (jArr (ts.map encodePT)) = true := by
    cases ts with
    | nil => exact absurd rfl hne
    | cons a l => rfl
  have hspec := insertLoop_spec env (createdByOf env p) (ts.map encodePT) st
  have hred : handle_task_confirmation env st "CONFIRM_TASKS" p wa =
      (match insertLoop env (createdByOf env p) st (ts.map encodePT) with
       | (st₁, some e) =>
         Except.ok (send_reply (log_error st₁ ("Error creating tasks: " ++ e)
           "Task Creation Error") p "❌ Error creating tasks. Please try again." wa)
       | (st₁, none) =>
         match get_user_by_phone env p with
         | some u =>
           Except.ok (send_my_tasks env
             (send_reply (clear_context st₁ p) p
               ("✅ *" ++ natStr (ts.map encodePT).length ++ " task" ++
                 (if 1 < (ts.map encodePT).length then "s" else "") ++ " created!*\n\n" ++
                 confirmSummary 1 (ts.map encodePT)) wa) p u.name wa)
         | none =>
           Except.ok (send_reply (clear_context st₁ p) p
             ("✅ *" ++ natStr (ts.map encodePT).length ++ " task" ++
               (if 1 < (ts.map encodePT).length then "s" else "") ++ " created!*\n\n" ++
               confirmSummary 1 (ts.map encodePT)) wa)) := by
    rw [handle_task_confirmation]
    simp only [Bind.bind, Except.bind, hg]
    rw [if_pos htruthy]
    simp only [isA_jArr, jItems_jArr, Bind.bind, Except.bind]
    rfl
  refine ⟨?_, ?_⟩
  · intro st₁ e hins
    refine ⟨?_, ?_⟩
    · rw [hred, hins]
    · have h1 := hspec.1
      rw [hins] at h1
      exact h1
  · intro st₁ hins
    obtain ⟨hcx, hob, docs, htasks, hstat, hlen⟩ := hspec
    rw [hins] at htasks hlen
    refine ⟨?_, docs, htasks, ?_, hstat⟩
    · cases hcu : get_user_by_phone env p with
      | none =>
        have heq : handle_task_confirmation env st "CONFIRM_TASKS" p wa =
            .ok (send_reply (clear_context st₁ p) p
              ("✅ *" ++ natStr (ts.map encodePT).length ++ " task" ++
                (if 1 < (ts.map encodePT).length then "s" else "") ++ " created!*\n\n" ++
                confirmSummary 1 (ts.map encodePT)) wa) := by
          rw [hred, hins, hcu]
        refine ⟨_, heq, by simp, ?_⟩
        simp [clear_context]
      | some u =>
        have heq : handle_task_confirmation env st "CONFIRM_TASKS" p wa =
            .ok (send_my_tasks env
              (send_reply (clear_context st₁ p) p
                ("✅ *" ++ natStr (ts.map encodePT).length ++ " task" ++
                  (if 1 < (ts.map encodePT).length then "s" else "") ++ " created!*\n\n" ++
                  confirmSummary 1 (ts.map encodePT)) wa) p u.name wa) := by
          rw [hred, hins, hcu]
        refine ⟨_, heq, ?_, ?_⟩
        · rw [send_my_tasks_tasks]
          simp
        · rcases send_my_tasks_contexts env
            (send_reply (clear_context st₁ p) p
              ("✅ *" ++ natStr (ts.map encodePT).length ++ " task" ++
                (if 1 < (ts.map encodePT).length then "s" else "") ++ " created!*\n\n" ++
                confirmSummary 1 (ts.map encodePT)) wa) p u.name wa p with hc | ⟨d, hc⟩
          · rw [hc]
            simp [clear_context]
          · rw [hc]
            simp
    · have h2 := hlen rfl
      rw [List.length_map] at h2
      exact h2

def ptW2 : PTask := ⟨"Fix login bug", .d 100, "alice", some "Alice A"⟩

def stP2 : St := set_context st0 "p9" "pending_tasks" (jArr ([ptW2].map encodePT))

/-- C2 witness: confirming a concrete one-task batch in an environment whose
inserts succeed — exactly one `Not Started` document is created and the
stored context is no longer `pending_tasks`. -/
theorem claim2_witness :
    (∃ st', handle_task_confirmation env0 stP2 "CONFIRM_TASKS" "p9" "wa" = .ok st' ∧
      st'.tasks = (insertLoop env0 (createdByOf env0 "p9") stP2
        ([ptW2].map encodePT)).1.tasks ∧
      (st'.contexts "p9").map (fun r => r.context_type) ≠ some "pending_tasks") ∧
    ∃ docs, (insertLoop env0 (createdByOf env0 "p9") stP2
        ([ptW2].map encodePT)).1.tasks = stP2.tasks ++ docs ∧
      docs.length = [ptW2].length ∧
      ∀ d ∈ docs, d.status = "Not Started" ∧ d.created_by = createdByOf env0 "p9" := by
  have h2 : insertLoop env0 (createdByOf env0 "p9") stP2 ([ptW2].map encodePT) =
      ((insertLoop env0 (createdByOf env0 "p9") stP2 ([ptW2].map encodePT)).1, none) := by
    rfl
  exact (claim2_confirm_atomicity env0 stP2 "p9" "wa" [ptW2] rfl (by decide)).2 _ h2
